import Mathlib

/-!
# Verification of the kiban-agent-kit swap and market-data subsystem

Shallow embedding of the repository's `SwapService` (ETH/WETH normalization,
swap quoting with slippage-bounded minimum output, swap execution with
allowance/approval handling), the amount-conversion primitives
(`parseUnits` / `formatUnits`, which are library code outside the repository
and are therefore modelled from the spec), the agent-tool wrappers, and the
DexScreener search service.

Effectful code is modelled by explicit oracles (`ChainEnv`) supplying the
responses of the external chain, together with a trace of the contract calls
the code issues.  JavaScript `number` arithmetic is modelled by exact
rationals, JavaScript `BigInt` by `Int`/`Nat` (division truncating toward
zero, `Int.tdiv`), and thrown exceptions by `Except String`.
-/

namespace KibanKit

/-! ## Token addresses and normalization (SwapService) -/

/-- Uniswap V3 router address, from the source. -/
def UNISWAP_V3_ROUTER : String := "0xE592427A0AEce92De3Edee1F18E0157C05861564"

/-- Uniswap V3 quoter address, from the source. -/
def UNISWAP_V3_QUOTER : String := "0xb27308f9F90D607463bb33eA1BeBb41C27CE5AB6"

namespace COMMON_TOKENS

/-- Special sentinel address used by the source to represent ETH. -/
def ETH : String := "0xEeeeeEeeeEeEeeEeEeEeeEEEeeeeEeeeeeeeEEeE"

/-- Canonical mainnet WETH address. -/
def WETH : String := "0xC02aaA39b223FE8D0A0e5C4F27eAD9083C756Cc2"

/-- Canonical mainnet USDC address. -/
def USDC : String := "0xA0b86991c6218b36c1d19D4a2e9Eb0cE3606eB48"

/-- Canonical mainnet USDT address. -/
def USDT : String := "0xdAC17F958D2ee523a2206206994597C13D831ec7"

/-- Canonical mainnet DAI address. -/
def DAI : String := "0x6B175474E89094C44Da98b954EedeAC495271d0F"

end COMMON_TOKENS

/-- Model of JavaScript `String.prototype.toUpperCase` (as used by the
source on token symbols): uppercase every character.  Same character map as
`String.toUpper`, written by structural recursion over the character data so
that it evaluates inside the kernel. -/
def toUpperStr (s : String) : String := String.mk (s.data.map Char.toUpper)

/-- Embedding of `SwapService.normalizeTokenAddress`: uppercase the input and
match it against the known symbol table, otherwise return it unchanged. -/
def normalizeTokenAddress (token : String) : String :=
  if toUpperStr token = "ETH" then COMMON_TOKENS.ETH
  else if toUpperStr token = "WETH" then COMMON_TOKENS.WETH
  else if toUpperStr token = "USDC" then COMMON_TOKENS.USDC
  else if toUpperStr token = "USDT" then COMMON_TOKENS.USDT
  else if toUpperStr token = "DAI" then COMMON_TOKENS.DAI
  else token

/-! ## Decimal amount conversion

Modelled from the spec: `toBaseUnits` / `toHumanUnits` (the Normalizer's
amount conversion; the underlying `parseUnits` / `formatUnits` primitives
are library code outside the repository).  Amounts are non-negative decimal
strings per the spec's `SwapParams` invariant. -/

/-- Parse a single decimal digit character. -/
def charToDigit (c : Char) : Option Nat :=
  if '0' ≤ c ∧ c ≤ '9' then some (c.toNat - '0'.toNat) else none

/-- Render a single decimal digit as a character. -/
def digitToChar (d : Nat) : Char := Char.ofNat ('0'.toNat + d)

/-- Value of a big-endian decimal digit list. -/
def digitsVal : List Nat → Nat
  | [] => 0
  | d :: ds => d * 10 ^ ds.length + digitsVal ds

/-- Parse a character list as a digit list, failing on any non-digit. -/
def parseDigits : List Char → Option (List Nat)
  | [] => some []
  | c :: cs =>
    match charToDigit c, parseDigits cs with
    | some d, some ds => some (d :: ds)
    | _, _ => none

/-- Split a character list at the first dot, if any. -/
def splitDot : List Char → List Char × Option (List Char)
  | [] => ([], none)
  | c :: cs =>
    if c = '.' then ([], some cs)
    else (c :: (splitDot cs).1, (splitDot cs).2)

/-- Little-endian decimal digits of a natural number, by fuel recursion so
that the kernel can evaluate it (`Nat.digits` uses well-founded recursion). -/
def natDigitsAux : Nat → Nat → List Nat
  | 0, _ => []
  | fuel + 1, n => if n = 0 then [] else n % 10 :: natDigitsAux fuel (n / 10)

/-- Little-endian decimal digits of a natural number (empty for zero). -/
def natDigitsLE (n : Nat) : List Nat := natDigitsAux n n

/-- Decimal character rendering of a natural number. -/
def natToChars (n : Nat) : List Char :=
  if n = 0 then ['0'] else (natDigitsLE n).reverse.map digitToChar

/-- Decimal string rendering of a natural number. -/
def natToStr (n : Nat) : String := String.mk (natToChars n)

/-- Remove trailing zero characters. -/
def dropTrailingZeros (cs : List Char) : List Char :=
  (cs.reverse.dropWhile (fun c => c = '0')).reverse

/-- Modelled from the spec: `toBaseUnits(humanAmount, decimals)` parses a
decimal string scaled by `10 ^ decimals`; excess fractional digits (or a
malformed string) are a caller error surfaced by the parsing primitive,
modelled as `none`. -/
def toBaseUnits (s : String) (d : Nat) : Option Nat :=
  match splitDot s.data with
  | (ip, fp) =>
    if ip = [] then none
    else
      match parseDigits ip with
      | none => none
      | some ids =>
        match fp with
        | none => some (digitsVal ids * 10 ^ d)
        | some fpc =>
          match parseDigits fpc with
          | none => none
          | some fds =>
            if fpc.length ≤ d then
              some (digitsVal ids * 10 ^ d + digitsVal fds * 10 ^ (d - fpc.length))
            else none

/-- Modelled from the spec: `toHumanUnits(baseAmount, decimals)` formats a
base-unit integer as a decimal string with trailing zeros trimmed (platform
convention: integer part `0` when the quotient is zero, no decimal point
when the trimmed fraction is empty). -/
def toHumanUnits (n : Nat) (d : Nat) : String :=
  let q := n / 10 ^ d
  let r := n % 10 ^ d
  let rDigits := (natDigitsLE r).reverse.map digitToChar
  let fracPadded := List.replicate (d - rDigits.length) '0' ++ rDigits
  let frac := dropTrailingZeros fracPadded
  if frac = [] then String.mk (natToChars q)
  else String.mk (natToChars q ++ '.' :: frac)

/-- Signed version of `toHumanUnits`, mirroring how the formatting primitive
treats a negative amount (format the magnitude, prepend the sign). -/
def toHumanUnitsInt (i : Int) (d : Nat) : String :=
  if i < 0 then "-" ++ toHumanUnits i.natAbs d else toHumanUnits i.toNat d

/-- Semantic interpretation: the rational number denoted by a decimal
string, used to state value-preservation claims. -/
def decValue (s : String) : Option ℚ :=
  match splitDot s.data with
  | (ip, fp) =>
    if ip = [] then none
    else
      match parseDigits ip with
      | none => none
      | some ids =>
        match fp with
        | none => some (digitsVal ids : ℚ)
        | some fpc =>
          match parseDigits fpc with
          | none => none
          | some fds =>
            some ((digitsVal ids : ℚ) + (digitsVal fds : ℚ) / 10 ^ fpc.length)

/-- Decidable equality for `Except` results, so that concrete runs of the
model can be checked by evaluation. -/
instance instDecEqExcept {ε α : Type} [DecidableEq ε] [DecidableEq α] :
    DecidableEq (Except ε α)
  | .error e, .error f =>
    if h : e = f then .isTrue (by rw [h]) else .isFalse (by simp [h])
  | .error _, .ok _ => .isFalse (by simp)
  | .ok _, .error _ => .isFalse (by simp)
  | .ok a, .ok b =>
    if h : a = b then .isTrue (by rw [h]) else .isFalse (by simp [h])

/-! ## Slippage arithmetic (SwapService.getSwapQuote) -/

/-- Model of JavaScript `Math.round`: round half toward positive infinity.
JavaScript floating-point values are modelled as exact rationals. -/
def jsRound (q : ℚ) : Int := ⌊q + 1 / 2⌋

/-- Kernel-computable form of `Math.round(q * m)` for a natural scale `m`,
written on the numerator and denominator so that concrete instances
evaluate by reduction; `jsRoundMul_eq` proves it equal to
`jsRound (q * m)`. -/
def jsRoundMul (m : Nat) (q : ℚ) : Int :=
  (2 * m * q.num + q.den) / ((2 * q.den : Nat) : Int)

/-- Embedding of the minimum-output computation of `getSwapQuote`:
`(amountOut * BigInt(10000 - Math.round(slippagePercentage * 100))) / 10000n`,
with `BigInt` division truncating toward zero (`Int.tdiv`). -/
def computeMinimumAmountOut (amountOut : Nat) (slippagePercentage : ℚ) : Int :=
  Int.tdiv ((amountOut : Int) * (10000 - jsRoundMul 100 slippagePercentage)) 10000

/-- Model of JavaScript `Number.prototype.toFixed(6)`: nearest multiple of
`10 ^ (-6)`, ties toward positive infinity, printed with exactly six
fractional digits. -/
def toFixed6 (q : ℚ) : String :=
  let scaled := jsRoundMul 1000000 q
  let sign := if scaled < 0 then "-" else ""
  let m := scaled.natAbs
  let fracPadded :=
    List.replicate (6 - (natDigitsLE (m % 10 ^ 6)).length) '0' ++
      (natDigitsLE (m % 10 ^ 6)).reverse.map digitToChar
  sign ++ String.mk (natToChars (m / 10 ^ 6) ++ '.' :: fracPadded)

/-- The execution-price ratio `Number(amountOut) / Number(amountIn)` scaled
by `10 ** (dIn - dOut)`, as one kernel-computable rational (floating-point
arithmetic modelled as exact rationals; a zero `amountIn`, which produces
NaN or Infinity in JavaScript, is not modelled; no claim depends on this
field). -/
def execPriceRat (amountOut amountIn : Nat) (dIn dOut : Nat) : ℚ :=
  if dOut ≤ dIn then mkRat ((amountOut : Int) * 10 ^ (dIn - dOut)) amountIn
  else mkRat (amountOut : Int) (amountIn * 10 ^ (dOut - dIn))

/-- Embedding of the execution-price formatting of `getSwapQuote`:
`(Number(amountOut) / Number(amountIn) * 10 ** (dIn - dOut)).toFixed(6)`. -/
def formatExecutionPrice (amountOut amountIn : Nat) (dIn dOut : Nat) : String :=
  toFixed6 (execPriceRat amountOut amountIn dIn dOut)

/-! ## Data model of the swap flow -/

/-- Embedding of the `TokenInfo` record returned by the facade's
`getTokenInfo`. -/
structure TokenInfo where
  address : String
  name : String
  symbol : String
  decimals : Nat
  balance : String
  balanceRaw : Nat
  deriving DecidableEq

/-- Embedding of `SwapParams` (optional fields as `Option`, with the
source's defaults applied at the use sites, as in the destructuring). -/
structure SwapParams where
  tokenIn : String
  tokenOut : String
  amount : String
  slippagePercentage : Option ℚ := none
  recipient : Option String := none
  deriving DecidableEq

/-- One side of a `SwapQuote`. -/
structure SwapQuoteSide where
  address : String
  symbol : String
  decimals : Nat
  amount : String
  deriving DecidableEq

/-- Embedding of the `SwapQuote` record. -/
structure SwapQuote where
  tokenIn : SwapQuoteSide
  tokenOut : SwapQuoteSide
  executionPrice : String
  minimumAmountOut : String
  priceImpact : String
  deriving DecidableEq

/-- Embedding of the `SwapResult` record. -/
structure SwapResult where
  hash : String
  tokenIn : String
  tokenOut : String
  amountIn : String
  expectedAmountOut : String
  deriving DecidableEq

/-- One external call issued by the swap flow, recorded in a trace in
program order. -/
inductive ChainCall where
  | getTokenInfo (token : String)
  | quoteExactInputSingle (tokenIn tokenOut : String) (fee : Nat) (amountIn : Nat)
  | readAllowance (token owner spender : String)
  | approve (token spender amount : String)
  | exactInputSingle (tokenIn tokenOut : String) (fee : Nat) (recipient : String)
      (deadline : Nat) (amountIn : Nat) (amountOutMinimum : Nat) (value : Option Nat)
  | waitForTransaction (hash : String)
  | getNativeBalance
  deriving DecidableEq

/-- Oracle for the external chain: the responses the environment returns to
each kind of call made by one `getSwapQuote` / `swapTokens` invocation. -/
structure ChainEnv where
  tokenInfo : String → Except String TokenInfo
  quoter : Except String Nat
  allowance : Nat
  approveResult : Except String String
  routerResult : Except String String
  waitResult : Except String Unit
  nativeBalance : String
  senderAddress : String
  nowSeconds : Nat

/-! ## getSwapQuote (SwapService) -/

/-- Embedding of `SwapService.getSwapQuote`: normalize both sides, read
token metadata (substituting WETH when a side is ETH), parse the amount,
call the quoter, and build the quote with the slippage-bounded minimum
output.  Returns the trace of issued calls together with the result; a
quoter failure is wrapped by the source's catch block, while metadata and
parse failures occur before the try block and propagate unwrapped. -/
def getSwapQuote (env : ChainEnv) (params : SwapParams) :
    List ChainCall × Except String SwapQuote :=
  let slippagePercentage := params.slippagePercentage.getD (mkRat 1 2)
  let normalizedTokenIn := normalizeTokenAddress params.tokenIn
  let normalizedTokenOut := normalizeTokenAddress params.tokenOut
  let isETHIn := normalizedTokenIn == COMMON_TOKENS.ETH
  let isETHOut := normalizedTokenOut == COMMON_TOKENS.ETH
  let tokenInQuery := if isETHIn then COMMON_TOKENS.WETH else normalizedTokenIn
  let tokenOutQuery := if isETHOut then COMMON_TOKENS.WETH else normalizedTokenOut
  match env.tokenInfo tokenInQuery with
  | .error e => ([.getTokenInfo tokenInQuery], .error e)
  | .ok tokenInInfo =>
    match env.tokenInfo tokenOutQuery with
    | .error e => ([.getTokenInfo tokenInQuery, .getTokenInfo tokenOutQuery], .error e)
    | .ok tokenOutInfo =>
      match toBaseUnits params.amount tokenInInfo.decimals with
      | none =>
        ([.getTokenInfo tokenInQuery, .getTokenInfo tokenOutQuery],
         .error "invalid decimal number")
      | some amountIn =>
        let trace := [ChainCall.getTokenInfo tokenInQuery,
                      ChainCall.getTokenInfo tokenOutQuery,
                      ChainCall.quoteExactInputSingle tokenInQuery tokenOutQuery 3000 amountIn]
        match env.quoter with
        | .error e => (trace, .error ("Failed to get swap quote: " ++ e))
        | .ok amountOut =>
          let minimumAmountOut := computeMinimumAmountOut amountOut slippagePercentage
          (trace, .ok {
            tokenIn := { address := normalizedTokenIn
                         symbol := tokenInInfo.symbol
                         decimals := tokenInInfo.decimals
                         amount := toHumanUnits amountIn tokenInInfo.decimals }
            tokenOut := { address := normalizedTokenOut
                          symbol := tokenOutInfo.symbol
                          decimals := tokenOutInfo.decimals
                          amount := toHumanUnits amountOut tokenOutInfo.decimals }
            executionPrice := "1 " ++ tokenInInfo.symbol ++ " = " ++
              formatExecutionPrice amountOut amountIn tokenInInfo.decimals tokenOutInfo.decimals
              ++ " " ++ tokenOutInfo.symbol
            minimumAmountOut := toHumanUnitsInt minimumAmountOut tokenOutInfo.decimals
            priceImpact := "< 1%" })

/-! ## swapTokens (SwapService) -/

/-- The enriched message the source throws when the underlying failure
mentions insufficient funds. -/
def insufficientFundsMessage (balance amount : String) : String :=
  "Insufficient funds for swap. You have " ++ balance ++
    " ETH but the transaction requires " ++ amount ++ " ETH plus gas fees."

/-- Helper for the substring test: does the second list occur inside the
first. -/
def strIncludesAux (sub : List Char) : List Char → Bool
  | [] => List.isPrefixOf sub []
  | c :: cs => List.isPrefixOf sub (c :: cs) || strIncludesAux sub cs

/-- Model of JavaScript `String.prototype.includes`. -/
def strIncludes (s sub : String) : Bool := strIncludesAux sub.data s.data

/-- The occurs-inside relation used to state the error-message claims. -/
def substrOf (sub s : String) : Prop := ∃ pre post, s = pre ++ sub ++ post

/-- Embedding of the catch block of `swapTokens`: an insufficient-funds
match reads the native balance and throws the enriched message; any other
failure is re-thrown with the original message appended. -/
def swapCatch (env : ChainEnv) (amount : String) (e : String) :
    List ChainCall × Except String SwapResult :=
  if strIncludes e "insufficient funds" then
    ([ChainCall.getNativeBalance],
     .error (insufficientFundsMessage env.nativeBalance amount))
  else
    ([], .error ("Failed to execute swap: " ++ e))

/-- The router-call phase of the try block of `swapTokens`: submit the
swap (attaching the input amount as native value on the ETH path), await
confirmation, and route failures through the catch block. -/
def swapRouterPhase (env : ChainEnv) (params : SwapParams) (quote : SwapQuote)
    (normalizedTokenIn normalizedTokenOut : String) (isETHIn isETHOut : Bool)
    (amountIn minimumAmountOut : Nat) (recipientAddress : String) :
    List ChainCall × Except String SwapResult :=
  let routerCall := ChainCall.exactInputSingle
    (if isETHIn then COMMON_TOKENS.WETH else normalizedTokenIn)
    (if isETHOut then COMMON_TOKENS.WETH else normalizedTokenOut)
    3000
    (if isETHOut then env.senderAddress else recipientAddress)
    (env.nowSeconds + 60 * 20)
    amountIn minimumAmountOut
    (if isETHIn then some amountIn else none)
  match env.routerResult with
  | .error e =>
    let c := swapCatch env params.amount e
    (routerCall :: c.1, c.2)
  | .ok txHash =>
    match env.waitResult with
    | .error e =>
      let c := swapCatch env params.amount e
      (routerCall :: ChainCall.waitForTransaction txHash :: c.1, c.2)
    | .ok _ =>
      ([routerCall, ChainCall.waitForTransaction txHash],
       .ok { hash := txHash
             tokenIn := quote.tokenIn.symbol
             tokenOut := quote.tokenOut.symbol
             amountIn := quote.tokenIn.amount
             expectedAmountOut := quote.tokenOut.amount })

/-- Embedding of the try block of `swapTokens`: the allowance check and
conditional approval for a non-ETH input (a blocking prerequisite), then
the router-call phase; every failure inside the block is routed through
`swapCatch`. -/
def swapTry (env : ChainEnv) (params : SwapParams) (quote : SwapQuote)
    (normalizedTokenIn normalizedTokenOut : String) (isETHIn isETHOut : Bool)
    (amountIn minimumAmountOut : Nat) (recipientAddress : String) :
    List ChainCall × Except String SwapResult :=
  if isETHIn then
    swapRouterPhase env params quote normalizedTokenIn normalizedTokenOut
      isETHIn isETHOut amountIn minimumAmountOut recipientAddress
  else
    let allowCall := ChainCall.readAllowance normalizedTokenIn env.senderAddress
      UNISWAP_V3_ROUTER
    let approveCall := ChainCall.approve normalizedTokenIn UNISWAP_V3_ROUTER params.amount
    if env.allowance < amountIn then
      match env.approveResult with
      | .error e =>
        let c := swapCatch env params.amount e
        (allowCall :: approveCall :: c.1, c.2)
      | .ok _ =>
        let p := swapRouterPhase env params quote normalizedTokenIn normalizedTokenOut
          isETHIn isETHOut amountIn minimumAmountOut recipientAddress
        (allowCall :: approveCall :: p.1, p.2)
    else
      let p := swapRouterPhase env params quote normalizedTokenIn normalizedTokenOut
        isETHIn isETHOut amountIn minimumAmountOut recipientAddress
      (allowCall :: p.1, p.2)

/-- Embedding of `SwapService.swapTokens`: obtain a fresh quote, re-read the
input token metadata, parse the amounts, then run the try block.  The quote,
metadata read and parses happen before the try block, so their failures
propagate unwrapped. -/
def swapTokens (env : ChainEnv) (params : SwapParams) :
    List ChainCall × Except String SwapResult :=
  match getSwapQuote env params with
  | (qTrace, .error e) => (qTrace, .error e)
  | (qTrace, .ok quote) =>
    let normalizedTokenIn := normalizeTokenAddress params.tokenIn
    let normalizedTokenOut := normalizeTokenAddress params.tokenOut
    let isETHIn := normalizedTokenIn == COMMON_TOKENS.ETH
    let isETHOut := normalizedTokenOut == COMMON_TOKENS.ETH
    let tokenInQuery := if isETHIn then COMMON_TOKENS.WETH else normalizedTokenIn
    match env.tokenInfo tokenInQuery with
    | .error e => (qTrace ++ [.getTokenInfo tokenInQuery], .error e)
    | .ok tokenInInfo =>
      let preTrace := qTrace ++ [ChainCall.getTokenInfo tokenInQuery]
      match toBaseUnits params.amount tokenInInfo.decimals with
      | none => (preTrace, .error "invalid decimal number")
      | some amountIn =>
        match toBaseUnits quote.minimumAmountOut quote.tokenOut.decimals with
        | none => (preTrace, .error "invalid decimal number")
        | some minimumAmountOut =>
          let recipientAddress := params.recipient.getD env.senderAddress
          let r := swapTry env params quote normalizedTokenIn normalizedTokenOut
            isETHIn isETHOut amountIn minimumAmountOut recipientAddress
          (preTrace ++ r.1, r.2)

/-- The address actually used for the input side's metadata read and
contract calls (WETH when the normalized input is the ETH sentinel). -/
def quoteTokenInQuery (params : SwapParams) : String :=
  if normalizeTokenAddress params.tokenIn == COMMON_TOKENS.ETH then COMMON_TOKENS.WETH
  else normalizeTokenAddress params.tokenIn

/-- The address actually used for the output side's metadata read and
contract calls (WETH when the normalized output is the ETH sentinel). -/
def quoteTokenOutQuery (params : SwapParams) : String :=
  if normalizeTokenAddress params.tokenOut == COMMON_TOKENS.ETH then COMMON_TOKENS.WETH
  else normalizeTokenAddress params.tokenOut

/-- The effective slippage percentage (the source's default is 0.5). -/
def effectiveSlippage (params : SwapParams) : ℚ :=
  params.slippagePercentage.getD (mkRat 1 2)

/-- The quote record produced on the success path, as a function of the
oracle responses. -/
def mkQuote (params : SwapParams) (infoIn infoOut : TokenInfo)
    (amountIn amountOut : Nat) : SwapQuote :=
  { tokenIn := { address := normalizeTokenAddress params.tokenIn
                 symbol := infoIn.symbol
                 decimals := infoIn.decimals
                 amount := toHumanUnits amountIn infoIn.decimals }
    tokenOut := { address := normalizeTokenAddress params.tokenOut
                  symbol := infoOut.symbol
                  decimals := infoOut.decimals
                  amount := toHumanUnits amountOut infoOut.decimals }
    executionPrice := "1 " ++ infoIn.symbol ++ " = " ++
      formatExecutionPrice amountOut amountIn infoIn.decimals infoOut.decimals
      ++ " " ++ infoOut.symbol
    minimumAmountOut := toHumanUnitsInt
      (computeMinimumAmountOut amountOut (effectiveSlippage params)) infoOut.decimals
    priceImpact := "< 1%" }

/-- The token-address arguments of a chain call (the arguments the
ETH-sentinel invariant is about). -/
def tokenArgs : ChainCall → List String
  | .getTokenInfo t => [t]
  | .quoteExactInputSingle a b _ _ => [a, b]
  | .readAllowance t _ _ => [t]
  | .approve t _ _ => [t]
  | .exactInputSingle a b _ _ _ _ _ _ => [a, b]
  | .waitForTransaction _ => []
  | .getNativeBalance => []

/-- Is this call a router swap submission. -/
def isRouterEv : ChainCall → Bool
  | .exactInputSingle _ _ _ _ _ _ _ _ => true
  | _ => false

/-- Is this call an allowance read. -/
def isAllowanceEv : ChainCall → Bool
  | .readAllowance _ _ _ => true
  | _ => false

/-- Is this call an approval submission. -/
def isApproveEv : ChainCall → Bool
  | .approve _ _ _ => true
  | _ => false

/-! ## Agent-tool wrappers and the DexScreener service -/

/-- Embedding of one DexScreener trading-pair record (the fields the
repository reads; the 24-hour volume, a JSON number, is modelled as an
exact rational). -/
structure DexPair where
  baseTokenName : String
  baseTokenSymbol : String
  baseTokenAddress : String
  chainId : String
  priceUsd : Option String
  volumeH24 : ℚ
  liquidityUsd : Option String
  dexId : String
  pairAddress : String
  deriving DecidableEq

/-- Embedding of the per-pair search result built by
`searchTokenByTicker` (the 24-hour volume kept as a rational rather than
re-serialized as JSON text). -/
structure TokenSearchResult where
  name : String
  symbol : String
  address : String
  chain : String
  price_usd : String
  volume_24h : ℚ
  liquidity : String
  dex : String
  deriving DecidableEq

/-- Embedding of the `TokenSearchResponse` record. -/
structure TokenSearchResponse where
  message : String
  results : List TokenSearchResult
  deriving DecidableEq

/-- The field mapping applied to each kept pair. -/
def toSearchResult (p : DexPair) : TokenSearchResult :=
  { name := p.baseTokenName
    symbol := p.baseTokenSymbol
    address := p.baseTokenAddress
    chain := p.chainId
    price_usd := p.priceUsd.getD "N/A"
    volume_24h := p.volumeH24
    liquidity := p.liquidityUsd.getD "N/A"
    dex := p.dexId }

/-- Embedding of the sort step of `searchTokenByTicker`: the comparator
`(a, b) => Number(b.volume.h24) - Number(a.volume.h24)` orders by descending
24-hour volume. -/
def sortPairsByVolume (pairs : List DexPair) : List DexPair :=
  pairs.mergeSort (fun a b => decide (b.volumeH24 ≤ a.volumeH24))

/-- Sort by descending volume and keep the top three. -/
def topPairsOf (pairs : List DexPair) : List DexPair :=
  (sortPairsByVolume pairs).take 3

/-- Embedding of `DexScreenerService.searchTokenByTicker`.  The HTTP
response is an oracle: a transport failure, a missing or present pair list. -/
def searchTokenByTickerService (response : Except String (Option (List DexPair)))
    (ticker : String) : Except String TokenSearchResponse :=
  match response with
  | .error e => .error ("Failed to search for token: " ++ e)
  | .ok none => .ok { message := "No tokens found matching this ticker", results := [] }
  | .ok (some pairs) =>
    if pairs.isEmpty then
      .ok { message := "No tokens found matching this ticker", results := [] }
    else
      .ok { message := "Found " ++ natToStr (topPairsOf pairs).length ++
              " top pairs for " ++ ticker
            results := (topPairsOf pairs).map toSearchResult }

/-- Placeholder rendering of a rational for serialized output (JSON number
formatting is not modelled; no claim inspects this text). -/
def ratToStr (q : ℚ) : String :=
  (if q < 0 then "-" else "") ++ natToStr q.num.natAbs ++
    (if q.den = 1 then "" else "/" ++ natToStr q.den)

/-- Modelled from the spec: the JSON text the `get_swap_quote` tool returns
on success (`JSON.stringify` of the selected quote fields; indentation and
string escaping are not modelled, only which data is serialized). -/
def jsonQuoteString (q : SwapQuote) : String :=
  "\x7b \x22tokenIn\x22: \x7b \x22symbol\x22: \x22" ++ q.tokenIn.symbol ++
    "\x22, \x22amount\x22: \x22" ++ q.tokenIn.amount ++
    "\x22 \x7d, \x22tokenOut\x22: \x7b \x22symbol\x22: \x22" ++ q.tokenOut.symbol ++
    "\x22, \x22amount\x22: \x22" ++ q.tokenOut.amount ++
    "\x22 \x7d, \x22executionPrice\x22: \x22" ++ q.executionPrice ++
    "\x22, \x22minimumAmountOut\x22: \x22" ++ q.minimumAmountOut ++
    "\x22, \x22priceImpact\x22: \x22" ++ q.priceImpact ++
    "\x22, \x22message\x22: \x22You can swap " ++ q.tokenIn.amount ++ " " ++
    q.tokenIn.symbol ++ " for approximately " ++ q.tokenOut.amount ++ " " ++
    q.tokenOut.symbol ++ " (minimum: " ++ q.minimumAmountOut ++ " " ++
    q.tokenOut.symbol ++ ").\x22 \x7d"

/-- Embedding of `GetSwapQuoteTool._call`: invoke the service inside a
try/catch; serialize the quote on success, return a descriptive error
string on failure; the tool itself never throws (its result is always
`Except.ok`). -/
def getSwapQuoteToolCall (env : ChainEnv) (input : SwapParams) : Except String String :=
  match (getSwapQuote env
      { tokenIn := input.tokenIn, tokenOut := input.tokenOut, amount := input.amount,
        slippagePercentage := input.slippagePercentage }).2 with
  | .ok quote => .ok (jsonQuoteString quote)
  | .error e => .ok ("Error getting swap quote: " ++ e)

/-- Modelled from the spec: the JSON text the `get_token_data` tool returns
on success (field selection of the first pair; indentation and string
escaping are not modelled). -/
def jsonTokenDataString (p : DexPair) : String :=
  "\x7b \x22name\x22: \x22" ++ p.baseTokenName ++
    "\x22, \x22symbol\x22: \x22" ++ p.baseTokenSymbol ++
    "\x22, \x22address\x22: \x22" ++ p.baseTokenAddress ++
    "\x22, \x22price_usd\x22: \x22" ++ p.priceUsd.getD "N/A" ++
    "\x22, \x22volume_24h\x22: " ++ ratToStr p.volumeH24 ++
    ", \x22liquidity\x22: \x22" ++ p.liquidityUsd.getD "N/A" ++
    "\x22, \x22pair_address\x22: \x22" ++ p.pairAddress ++ "\x22 \x7d"

/-- Embedding of `GetTokenDataTool._call`: fetch the pair list inside a
try/catch; report the first pair on success, a fixed sentence when no data
is found, and a descriptive error string on transport failure; never
throws. -/
def getTokenDataToolCall (response : Except String (Option (List DexPair)))
    (tokenAddress : String) : Except String String :=
  match response with
  | .error e => .ok ("Error fetching token data: " ++ e)
  | .ok none => .ok "No data found for this token"
  | .ok (some pairs) =>
    match pairs with
    | [] => .ok "No data found for this token"
    | pair :: _ => .ok (jsonTokenDataString pair)

/-! ## Concrete fixtures used to exercise the model on closed inputs -/

/-- Fixed token metadata returned by the sample oracle. -/
def sampleInfo (a : String) : TokenInfo :=
  { address := a, name := "Token", symbol := "TOK", decimals := 2,
    balance := "0", balanceRaw := 0 }

/-- A sample oracle where every call succeeds. -/
def sampleEnv : ChainEnv where
  tokenInfo := fun a => .ok (sampleInfo a)
  quoter := .ok 100
  allowance := 0
  approveResult := .ok "0xapprovetx"
  routerResult := .ok "0xswaptx"
  waitResult := .ok ()
  nativeBalance := "1.0"
  senderAddress := "0xsender"
  nowSeconds := 1000

/-- Sample swap parameters: an ERC20-to-ERC20 swap at the 0.5 default. -/
def sampleParams : SwapParams :=
  { tokenIn := "USDC", tokenOut := "DAI", amount := "1",
    slippagePercentage := some (mkRat 1 2) }

/-- The quote the model produces for `sampleEnv` and `sampleParams`. -/
def sampleQuote : SwapQuote where
  tokenIn := { address := COMMON_TOKENS.USDC, symbol := "TOK", decimals := 2,
               amount := "1" }
  tokenOut := { address := COMMON_TOKENS.DAI, symbol := "TOK", decimals := 2,
                amount := "1" }
  executionPrice := "1 TOK = 1.000000 TOK"
  minimumAmountOut := "0.99"
  priceImpact := "< 1%"

/-- The sample oracle with a zero quoted output. -/
def zeroQuoteEnv : ChainEnv :=
  { sampleEnv with quoter := .ok 0 }

/-- The quote the model produces for `zeroQuoteEnv` and `sampleParams`. -/
def zeroQuote : SwapQuote where
  tokenIn := { address := COMMON_TOKENS.USDC, symbol := "TOK", decimals := 2,
               amount := "1" }
  tokenOut := { address := COMMON_TOKENS.DAI, symbol := "TOK", decimals := 2,
                amount := "0" }
  executionPrice := "1 TOK = 0.000000 TOK"
  minimumAmountOut := "0"
  priceImpact := "< 1%"

/-- Sample swap parameters paying with ETH. -/
def ethParams : SwapParams :=
  { tokenIn := "ETH", tokenOut := "USDC", amount := "0.01",
    slippagePercentage := some (mkRat 1 2) }

/-- A sample trading pair with the given name and 24-hour volume. -/
def mkSamplePair (name : String) (vol : ℚ) : DexPair :=
  { baseTokenName := name, baseTokenSymbol := name, baseTokenAddress := "0x" ++ name,
    chainId := "ethereum", priceUsd := some "1.0", volumeH24 := vol,
    liquidityUsd := some "1000", dexId := "uniswap", pairAddress := "0xp" ++ name }

/-- Five sample pairs with pairwise-distinct volumes. -/
def samplePairs : List DexPair :=
  [mkSamplePair "A" (mkRat 5 1), mkSamplePair "B" (mkRat 9 1),
   mkSamplePair "C" (mkRat 1 1), mkSamplePair "D" (mkRat 7 1),
   mkSamplePair "E" (mkRat 3 1)]

/-! ## Helper lemmas: rounding -/

/-- The computable rounding form agrees with `Math.round (q * m)`. -/
theorem jsRoundMul_eq (m : Nat) (q : ℚ) : jsRoundMul m q = jsRound (q * m) := by
  have key : (q * m + 1 / 2 : ℚ) =
      ((2 * m * q.num + q.den : Int) : ℚ) / ((2 * q.den : Nat) : ℚ) := by
    have hd0 : (q.den : ℚ) ≠ 0 := by exact_mod_cast q.den_nz
    push_cast
    conv_lhs => rw [← Rat.num_div_den q]
    field_simp
    ring
  rw [jsRound, jsRoundMul, key, Rat.floor_intCast_div_natCast]

/-! ## Helper lemmas: digits and decimal strings -/

theorem natDigitsAux_eq (fuel : Nat) : ∀ n : Nat, n ≤ fuel →
    natDigitsAux fuel n = Nat.digits 10 n := by
  induction fuel with
  | zero =>
    intro n h
    interval_cases n
    simp [natDigitsAux]
  | succ fuel ih =>
    intro n h
    by_cases hn : n = 0
    · simp [natDigitsAux, hn]
    · rw [natDigitsAux, if_neg hn,
        Nat.digits_def' (by norm_num : (1 : Nat) < 10) (Nat.pos_of_ne_zero hn),
        ih (n / 10) (by
          have := Nat.div_lt_self (Nat.pos_of_ne_zero hn) (by norm_num : (1 : Nat) < 10)
          omega)]

theorem natDigitsLE_eq (n : Nat) : natDigitsLE n = Nat.digits 10 n :=
  natDigitsAux_eq n n le_rfl

theorem digitsVal_append_single (a : List Nat) (x : Nat) :
    digitsVal (a ++ [x]) = 10 * digitsVal a + x := by
  induction a with
  | nil => simp [digitsVal]
  | cons d ds ih =>
    have h1 : (d :: ds) ++ [x] = d :: (ds ++ [x]) := rfl
    rw [h1, digitsVal, ih, digitsVal]
    simp only [List.length_append, List.length_cons, List.length_nil]
    ring

theorem digitsVal_reverse (l : List Nat) : digitsVal l.reverse = Nat.ofDigits 10 l := by
  induction l with
  | nil => simp [digitsVal, Nat.ofDigits]
  | cons x l ih =>
    rw [List.reverse_cons, digitsVal_append_single, ih, Nat.ofDigits_cons]
    ring

theorem digitsVal_natDigitsLE (n : Nat) : digitsVal (natDigitsLE n).reverse = n := by
  rw [natDigitsLE_eq, digitsVal_reverse, Nat.ofDigits_digits]

theorem natDigitsLE_lt (n : Nat) : ∀ x ∈ natDigitsLE n, x < 10 := by
  rw [natDigitsLE_eq]
  intro x hx
  exact Nat.digits_lt_base (by norm_num) hx

theorem natDigitsLE_len_le {n d : Nat} (h : n < 10 ^ d) :
    (natDigitsLE n).length ≤ d := by
  rw [natDigitsLE_eq]
  rcases Nat.eq_zero_or_pos n with h0 | h0
  · simp [h0]
  · rw [Nat.digits_len 10 n (by norm_num) (by omega)]
    have := Nat.log_lt_of_lt_pow (by omega : n ≠ 0) h
    omega

theorem charToDigit_digitToChar {d : Nat} (h : d < 10) :
    charToDigit (digitToChar d) = some d := by
  interval_cases d <;> decide

theorem digitToChar_ne_dot {d : Nat} (h : d < 10) : digitToChar d ≠ '.' := by
  interval_cases d <;> decide

theorem digitToChar_eq_zero_iff {d : Nat} (h : d < 10) :
    (digitToChar d = '0') ↔ d = 0 := by
  interval_cases d <;> decide

theorem parseDigits_map {ds : List Nat} (h : ∀ x ∈ ds, x < 10) :
    parseDigits (ds.map digitToChar) = some ds := by
  induction ds with
  | nil => rfl
  | cons d ds ih =>
    simp only [List.map_cons, parseDigits]
    rw [charToDigit_digitToChar (h d (by simp)), ih (fun x hx => h x (by simp [hx]))]

theorem splitDot_no_dot {l : List Char} (h : ∀ c ∈ l, c ≠ '.') :
    splitDot l = (l, none) := by
  induction l with
  | nil => rfl
  | cons c cs ih =>
    rw [splitDot, if_neg (h c (by simp)), ih (fun x hx => h x (by simp [hx]))]

theorem splitDot_append {a b : List Char} (h : ∀ c ∈ a, c ≠ '.') :
    splitDot (a ++ '.' :: b) = (a, some b) := by
  induction a with
  | nil => simp [splitDot]
  | cons c cs ih =>
    have h1 : (c :: cs) ++ '.' :: b = c :: (cs ++ '.' :: b) := rfl
    rw [h1, splitDot, if_neg (h c (by simp)), ih (fun x hx => h x (by simp [hx]))]

theorem dropWhile_congr_mem {α : Type} {p q : α → Bool} :
    ∀ {l : List α}, (∀ x ∈ l, p x = q x) → l.dropWhile p = l.dropWhile q
  | [], _ => rfl
  | x :: l, h => by
    simp only [List.dropWhile, h x (by simp)]
    cases hq : q x
    · rfl
    · exact dropWhile_congr_mem (fun y hy => h y (by simp [hy]))

theorem digitsVal_replicate_zero_append (k : Nat) (ds : List Nat) :
    digitsVal (List.replicate k 0 ++ ds) = digitsVal ds := by
  induction k with
  | zero => simp
  | succ k ih => simpa [digitsVal] using ih

theorem digitsVal_append_replicate_zero (a : List Nat) (z : Nat) :
    digitsVal (a ++ List.replicate z 0) = digitsVal a * 10 ^ z := by
  induction z with
  | zero => simp
  | succ z ih =>
    rw [List.replicate_succ', ← List.append_assoc, digitsVal_append_single, ih, pow_succ]
    ring

theorem natToChars_spec (q : Nat) : ∃ Q : List Nat,
    natToChars q = Q.map digitToChar ∧ (∀ x ∈ Q, x < 10) ∧
    digitsVal Q = q ∧ Q ≠ [] := by
  by_cases hq : q = 0
  · refine ⟨[0], ?_, ?_, ?_, ?_⟩ <;> simp [hq, natToChars, digitToChar, digitsVal]
  · refine ⟨(natDigitsLE q).reverse, ?_, ?_, ?_, ?_⟩
    · simp [natToChars, hq]
    · intro x hx
      exact natDigitsLE_lt q x (List.mem_reverse.mp hx)
    · exact digitsVal_natDigitsLE q
    · simp only [ne_eq, List.reverse_eq_nil_iff, natDigitsLE_eq]
      exact Nat.digits_ne_nil_iff_ne_zero.mpr hq

theorem digitToChar_zero : digitToChar 0 = '0' := by decide

theorem data_mk (l : List Char) : (String.mk l).data = l := rfl

/-- Formatting a base-unit amount and parsing it back at the same precision
recovers the amount. -/
theorem toBaseUnits_toHumanUnits (n d : Nat) :
    toBaseUnits (toHumanUnits n d) d = some n := by
  have hPpos : 0 < 10 ^ d := Nat.pos_pow_of_pos d (by norm_num)
  have hr : n % 10 ^ d < 10 ^ d := Nat.mod_lt _ hPpos
  set q := n / 10 ^ d with hq
  set r := n % 10 ^ d with hrdef
  set R : List Nat := (natDigitsLE r).reverse with hR
  have hRlt : ∀ x ∈ R, x < 10 := fun x hx => natDigitsLE_lt r x (List.mem_reverse.mp hx)
  have hRval : digitsVal R = r := digitsVal_natDigitsLE r
  have hRlen : R.length ≤ d := by
    rw [hR, List.length_reverse]
    exact natDigitsLE_len_le hr
  set F : List Nat := List.replicate (d - R.length) 0 ++ R with hF
  have hFlt : ∀ x ∈ F, x < 10 := by
    intro x hx
    rw [hF] at hx
    rcases List.mem_append.mp hx with h | h
    · have := List.eq_of_mem_replicate h
      omega
    · exact hRlt x h
  have hFlen : F.length = d := by
    rw [hF]
    simp only [List.length_append, List.length_replicate]
    omega
  have hFval : digitsVal F = r := by
    rw [hF, digitsVal_replicate_zero_append, hRval]
  set F' : List Nat := (F.reverse.dropWhile (fun x => decide (x = 0))).reverse with hF2
  have hfrac : dropTrailingZeros (F.map digitToChar) = F'.map digitToChar := by
    rw [dropTrailingZeros, ← List.map_reverse, List.dropWhile_map]
    simp only [Function.comp_def]
    rw [dropWhile_congr_mem (q := fun x => decide (x = 0))
        (fun x hx => decide_eq_decide.mpr
          (digitToChar_eq_zero_iff (hFlt x (List.mem_reverse.mp hx)))),
      ← List.map_reverse]
  set z := (F.reverse.takeWhile (fun x => decide (x = 0))).length with hz
  have hdecomp : F = F' ++ List.replicate z 0 := by
    have h1 : F.reverse.takeWhile (fun x => decide (x = 0)) ++
        F.reverse.dropWhile (fun x => decide (x = 0)) = F.reverse :=
      List.takeWhile_append_dropWhile (fun x => decide (x = 0)) F.reverse
    have h2 : F.reverse.takeWhile (fun x => decide (x = 0)) = List.replicate z 0 := by
      rw [List.eq_replicate_iff]
      refine ⟨hz.symm, fun b hb => ?_⟩
      have := List.mem_takeWhile_imp hb
      simpa using this
    calc F = F.reverse.reverse := (List.reverse_reverse F).symm
    _ = (F.reverse.takeWhile (fun x => decide (x = 0)) ++
          F.reverse.dropWhile (fun x => decide (x = 0))).reverse := by rw [h1]
    _ = (F.reverse.dropWhile (fun x => decide (x = 0))).reverse ++
          (F.reverse.takeWhile (fun x => decide (x = 0))).reverse := by
        rw [List.reverse_append]
    _ = F' ++ List.replicate z 0 := by rw [← hF2, h2, List.reverse_replicate]
  have hzlen : F'.length + z = d := by
    have hlen := congrArg List.length hdecomp
    simp only [List.length_append, List.length_replicate] at hlen
    omega
  have hval2 : digitsVal F' * 10 ^ z = r := by
    rw [← hFval, hdecomp, digitsVal_append_replicate_zero]
  have hF'lt : ∀ x ∈ F', x < 10 := fun x hx =>
    hFlt x (by rw [hdecomp]; exact List.mem_append.mpr (Or.inl hx))
  obtain ⟨Q, hQeq, hQlt, hQval, hQne⟩ := natToChars_spec q
  have hQnodot : ∀ c ∈ natToChars q, c ≠ '.' := by
    rw [hQeq]
    intro c hc
    obtain ⟨x, hx, rfl⟩ := List.mem_map.mp hc
    exact digitToChar_ne_dot (hQlt x hx)
  have hQnonnil : natToChars q ≠ [] := by
    rw [hQeq]
    simpa using hQne
  have hpad : List.replicate (d - ((natDigitsLE r).reverse.map digitToChar).length) '0' ++
      (natDigitsLE r).reverse.map digitToChar = F.map digitToChar := by
    rw [hF, List.map_append, List.map_replicate, digitToChar_zero, List.length_map, hR]
  rw [toHumanUnits]
  simp only [← hq, ← hrdef, hpad, hfrac]
  by_cases hFe : F' = []
  · rw [if_pos (by simp [hFe])]
    have hr0 : r = 0 := by
      rw [← hval2, hFe]
      simp [digitsVal]
    have hqn : q * 10 ^ d = n := by
      have hdm : 10 ^ d * q + r = n := Nat.div_add_mod n (10 ^ d)
      rw [Nat.mul_comm]
      omega
    simp only [toBaseUnits, data_mk]
    rw [splitDot_no_dot hQnodot]
    simp [hQeq, parseDigits_map hQlt, hQval, hQne, hqn]
  · rw [if_neg (by simpa using hFe)]
    have hle : F'.length ≤ d := by omega
    have hdz : d - F'.length = z := by omega
    have harith : q * 10 ^ d + digitsVal F' * 10 ^ z = n := by
      have hdm : 10 ^ d * q + r = n := Nat.div_add_mod n (10 ^ d)
      rw [hval2, Nat.mul_comm]
      omega
    simp only [toBaseUnits, data_mk]
    rw [splitDot_append hQnodot]
    simp [hQeq, parseDigits_map hQlt, hQval, parseDigits_map hF'lt, hQne,
      List.length_map, hle, hdz, harith]

/-- A successfully parsed decimal string denotes exactly its base-unit
value divided by the scale. -/
theorem decValue_eq_of_toBaseUnits {s : String} {d n : Nat}
    (h : toBaseUnits s d = some n) : decValue s = some ((n : ℚ) / 10 ^ d) := by
  have h10 : ((10 : ℚ) ^ d) ≠ 0 := by positivity
  rw [toBaseUnits] at h
  rw [decValue]
  rcases hsd : splitDot s.data with ⟨ip, fp⟩
  simp only [hsd] at h ⊢
  by_cases hip : ip = []
  · rw [if_pos hip] at h
    exact absurd h (by simp)
  · rw [if_neg hip] at h
    rw [if_neg hip]
    cases fp with
    | none =>
      cases hpi : parseDigits ip with
      | none =>
        simp only [hpi] at h
        exact absurd h (by simp)
      | some ids =>
        simp only [hpi] at h ⊢
        simp only [Option.some.injEq] at h ⊢
        rw [← h]
        push_cast
        field_simp
    | some fpc =>
      cases hpi : parseDigits ip with
      | none =>
        simp only [hpi] at h
        exact absurd h (by simp)
      | some ids =>
        simp only [hpi] at h ⊢
        cases hpf : parseDigits fpc with
        | none =>
          simp only [hpf] at h
          exact absurd h (by simp)
        | some fds =>
          simp only [hpf] at h ⊢
          by_cases hlen : fpc.length ≤ d
          · rw [if_pos hlen] at h
            simp only [Option.some.injEq] at h ⊢
            rw [← h]
            have hsplitPow : (10 : ℚ) ^ d = 10 ^ (d - fpc.length) * 10 ^ fpc.length := by
              rw [← pow_add]
              congr 1
              omega
            have hf0 : ((10 : ℚ) ^ fpc.length) ≠ 0 := by positivity
            rw [eq_div_iff h10]
            push_cast
            rw [hsplitPow]
            field_simp
            ring
          · rw [if_neg hlen] at h
            exact absurd h (by simp)

/-- C6: converting a decimal string with at most `d` fractional digits to
base units and formatting the result back yields a string denoting the same
numeric value (and parsing it back recovers the same base-unit value). -/
theorem c6_roundtrip (a : String) (d n : Nat) (h : toBaseUnits a d = some n) :
    toBaseUnits (toHumanUnits n d) d = some n ∧
    decValue (toHumanUnits n d) = decValue a := by
  refine ⟨toBaseUnits_toHumanUnits n d, ?_⟩
  rw [decValue_eq_of_toBaseUnits h,
    decValue_eq_of_toBaseUnits (toBaseUnits_toHumanUnits n d)]

/-- Witness for `c6_roundtrip` at a concrete input. -/
theorem c6_roundtrip_witness :
    toBaseUnits "1.5" 3 = some 1500 ∧
    (toBaseUnits (toHumanUnits 1500 3) 3 = some 1500 ∧
     decValue (toHumanUnits 1500 3) = decValue "1.5") :=
  ⟨by decide, c6_roundtrip "1.5" 3 1500 (by decide)⟩

/-- C5: for every supported symbol, `normalizeTokenAddress` maps the symbol,
its lowercase form and its uppercase form (the symbol itself) to the
documented fixed address, and every input whose uppercasing is not a
supported symbol is returned unchanged. -/
theorem c5_normalize_symbols :
    (normalizeTokenAddress "ETH" = COMMON_TOKENS.ETH ∧
     normalizeTokenAddress "eth" = COMMON_TOKENS.ETH ∧
     normalizeTokenAddress "WETH" = COMMON_TOKENS.WETH ∧
     normalizeTokenAddress "weth" = COMMON_TOKENS.WETH ∧
     normalizeTokenAddress "USDC" = COMMON_TOKENS.USDC ∧
     normalizeTokenAddress "usdc" = COMMON_TOKENS.USDC ∧
     normalizeTokenAddress "USDT" = COMMON_TOKENS.USDT ∧
     normalizeTokenAddress "usdt" = COMMON_TOKENS.USDT ∧
     normalizeTokenAddress "DAI" = COMMON_TOKENS.DAI ∧
     normalizeTokenAddress "dai" = COMMON_TOKENS.DAI) ∧
    (∀ token : String,
      toUpperStr token ∉ (["ETH", "WETH", "USDC", "USDT", "DAI"] : List String) →
      normalizeTokenAddress token = token) := by
  constructor
  · refine ⟨?_, ?_, ?_, ?_, ?_, ?_, ?_, ?_, ?_, ?_⟩ <;> decide
  · intro token h
    simp only [List.mem_cons, List.not_mem_nil, or_false, not_or] at h
    obtain ⟨h1, h2, h3, h4, h5⟩ := h
    simp [normalizeTokenAddress, h1, h2, h3, h4, h5]

/-- Witness for the hypothesis of `c5_normalize_symbols`: a non-symbol input
is returned unchanged. -/
theorem c5_normalize_symbols_witness :
    normalizeTokenAddress "0x1f9840a85d5aF5bf1D1762F925BDADdC4201F984" =
      "0x1f9840a85d5aF5bf1D1762F925BDADdC4201F984" :=
  c5_normalize_symbols.2 "0x1f9840a85d5aF5bf1D1762F925BDADdC4201F984" (by decide)


/-! ## The quote pipeline -/

/-- Characterization of a successful `getSwapQuote` run: the trace and the
returned quote, given the oracle responses. -/
theorem getSwapQuote_ok (env : ChainEnv) (params : SwapParams)
    {infoIn infoOut : TokenInfo} {amountIn amountOut : Nat}
    (hIn : env.tokenInfo (quoteTokenInQuery params) = .ok infoIn)
    (hOut : env.tokenInfo (quoteTokenOutQuery params) = .ok infoOut)
    (hAmt : toBaseUnits params.amount infoIn.decimals = some amountIn)
    (hQ : env.quoter = .ok amountOut) :
    getSwapQuote env params =
      ([ChainCall.getTokenInfo (quoteTokenInQuery params),
        ChainCall.getTokenInfo (quoteTokenOutQuery params),
        ChainCall.quoteExactInputSingle (quoteTokenInQuery params)
          (quoteTokenOutQuery params) 3000 amountIn],
       .ok (mkQuote params infoIn infoOut amountIn amountOut)) := by
  rw [getSwapQuote]
  simp only [quoteTokenInQuery, quoteTokenOutQuery, effectiveSlippage, mkQuote] at hIn hOut ⊢
  simp only [hIn, hOut, hAmt, hQ]

/-- The rounded slippage is non-negative and at most `10000` basis points
for a slippage percentage in `[0, 100]`. -/
theorem jsRound_slip_bounds {slip : ℚ} (h0 : 0 ≤ slip) (h1 : slip ≤ 100) :
    0 ≤ jsRound (slip * 100) ∧ jsRound (slip * 100) ≤ 10000 := by
  constructor
  · apply Int.floor_nonneg.mpr
    have : 0 ≤ slip * 100 := by positivity
    linarith
  · have hle : slip * 100 + 1 / 2 ≤ (10000 : ℚ) + 1 / 2 := by
      have := mul_le_mul_of_nonneg_right h1 (by norm_num : (0 : ℚ) ≤ 100)
      linarith
    have := Int.floor_mono hle
    have h2 : ⌊(10000 : ℚ) + 1 / 2⌋ = 10000 := by norm_num
    rw [jsRound]
    omega

/-- The minimum-output value is the non-negative basis-point floor formula
on base units. -/
theorem computeMinimumAmountOut_toNat (amountOut : Nat) (slip : ℚ)
    (h0 : 0 ≤ slip) (h1 : slip ≤ 100) :
    0 ≤ computeMinimumAmountOut amountOut slip ∧
    (computeMinimumAmountOut amountOut slip).toNat
      = amountOut * (10000 - (jsRound (slip * 100)).toNat) / 10000 := by
  obtain ⟨hJ0, hJle⟩ := jsRound_slip_bounds h0 h1
  have hsub : (10000 : Int) - jsRound (slip * 100)
      = ((10000 - (jsRound (slip * 100)).toNat : Nat) : Int) := by
    omega
  have hc : slip * ((100 : ℕ) : ℚ) = slip * 100 := by norm_num
  have h10000 : (10000 : Int) = ((10000 : ℕ) : Int) := rfl
  rw [computeMinimumAmountOut, jsRoundMul_eq, hc, hsub, ← Int.natCast_mul, h10000,
    ← Int.ofNat_tdiv]
  exact ⟨Int.natCast_nonneg _, Int.toNat_ofNat _⟩

/-- Parsing the formatted minimum output back at the output token's
precision recovers the basis-point floor formula. -/
theorem minimumAmountOut_parse (amountOut : Nat) (slip : ℚ) (d : Nat)
    (h0 : 0 ≤ slip) (h1 : slip ≤ 100) :
    toBaseUnits (toHumanUnitsInt (computeMinimumAmountOut amountOut slip) d) d
      = some (amountOut * (10000 - (jsRound (slip * 100)).toNat) / 10000) := by
  obtain ⟨hge, htn⟩ := computeMinimumAmountOut_toNat amountOut slip h0 h1
  rw [toHumanUnitsInt, if_neg (not_lt.mpr hge), toBaseUnits_toHumanUnits, htn]

/-- C1: the base-unit minimum output of every quote equals
`amountOut * (10000 - round(slippagePercentage * 100)) / 10000` with floor
division on base units, and in particular `1,000,000` base units at `0.5`
percent slippage give `995,000`. -/
theorem c1_minimum_amount_out :
    (∀ (env : ChainEnv) (params : SwapParams) (infoIn infoOut : TokenInfo)
      (amountIn amountOut : Nat) (q : SwapQuote),
      0 ≤ effectiveSlippage params → effectiveSlippage params ≤ 100 →
      env.tokenInfo (quoteTokenInQuery params) = .ok infoIn →
      env.tokenInfo (quoteTokenOutQuery params) = .ok infoOut →
      toBaseUnits params.amount infoIn.decimals = some amountIn →
      env.quoter = .ok amountOut →
      (getSwapQuote env params).2 = .ok q →
      toBaseUnits q.minimumAmountOut q.tokenOut.decimals
        = some (amountOut *
            (10000 - (jsRound (effectiveSlippage params * 100)).toNat) / 10000)) ∧
    computeMinimumAmountOut 1000000 (1 / 2) = 995000 := by
  constructor
  · intro env params infoIn infoOut amountIn amountOut q hs0 hs1 hIn hOut hAmt hQ hok
    rw [getSwapQuote_ok env params hIn hOut hAmt hQ] at hok
    simp only [Except.ok.injEq] at hok
    rw [← hok]
    exact minimumAmountOut_parse amountOut (effectiveSlippage params) infoOut.decimals hs0 hs1
  · rw [computeMinimumAmountOut, jsRoundMul_eq]
    norm_num [jsRound]
    decide


/-- Witness for `c1_minimum_amount_out` at concrete inputs. -/
theorem c1_minimum_amount_out_witness :
    toBaseUnits sampleQuote.minimumAmountOut sampleQuote.tokenOut.decimals
      = some (100 * (10000 - (jsRound (effectiveSlippage sampleParams * 100)).toNat)
          / 10000) :=
  c1_minimum_amount_out.1 sampleEnv sampleParams
    (sampleInfo COMMON_TOKENS.USDC) (sampleInfo COMMON_TOKENS.DAI) 100 100 sampleQuote
    (by rw [show effectiveSlippage sampleParams = mkRat 1 2 from rfl, Rat.mkRat_eq_div]
        norm_num)
    (by rw [show effectiveSlippage sampleParams = mkRat 1 2 from rfl, Rat.mkRat_eq_div]
        norm_num)
    (by decide) (by decide) (by decide) (by decide) (by decide)

/-- C2 (amended): for every successful quote, the minimum output equals the
quoted output when the slippage percentage is zero, and is strictly below it
whenever the rounded slippage is at least one basis point and the quoted
output is positive (comparison of the numeric values denoted by the two
formatted strings). -/
theorem c2_minimum_vs_amount_out (env : ChainEnv) (params : SwapParams)
    (infoIn infoOut : TokenInfo) (amountIn amountOut : Nat) (q : SwapQuote)
    (hs0 : 0 ≤ effectiveSlippage params) (hs1 : effectiveSlippage params ≤ 100)
    (hIn : env.tokenInfo (quoteTokenInQuery params) = .ok infoIn)
    (hOut : env.tokenInfo (quoteTokenOutQuery params) = .ok infoOut)
    (hAmt : toBaseUnits params.amount infoIn.decimals = some amountIn)
    (hQ : env.quoter = .ok amountOut)
    (hok : (getSwapQuote env params).2 = .ok q) :
    (effectiveSlippage params = 0 →
      decValue q.minimumAmountOut = decValue q.tokenOut.amount) ∧
    (1 ≤ jsRound (effectiveSlippage params * 100) → 0 < amountOut →
      ∃ vMin vOut : ℚ, decValue q.minimumAmountOut = some vMin ∧
        decValue q.tokenOut.amount = some vOut ∧ vMin < vOut) := by
  rw [getSwapQuote_ok env params hIn hOut hAmt hQ] at hok
  simp only [Except.ok.injEq] at hok
  subst hok
  simp only [mkQuote]
  have hparse := minimumAmountOut_parse amountOut (effectiveSlippage params)
    infoOut.decimals hs0 hs1
  have hminVal := decValue_eq_of_toBaseUnits hparse
  have houtVal := decValue_eq_of_toBaseUnits
    (toBaseUnits_toHumanUnits amountOut infoOut.decimals)
  constructor
  · intro hz
    have hK : jsRound (effectiveSlippage params * 100) = 0 := by
      rw [hz, jsRound]
      norm_num
    have : amountOut * (10000 - (jsRound (effectiveSlippage params * 100)).toNat)
        / 10000 = amountOut := by
      rw [hK]
      simp
    simp only [this] at hminVal
    rw [hminVal, houtVal]
  · intro hK1 hA
    have hKle : (jsRound (effectiveSlippage params * 100)).toNat ≤ 10000 :=
      by have := (jsRound_slip_bounds hs0 hs1).2; omega
    have hK1n : 1 ≤ (jsRound (effectiveSlippage params * 100)).toNat := by omega
    have hlt : amountOut * (10000 - (jsRound (effectiveSlippage params * 100)).toNat)
        / 10000 < amountOut := by
      apply Nat.div_lt_of_lt_mul
      calc amountOut * (10000 - (jsRound (effectiveSlippage params * 100)).toNat)
          < amountOut * 10000 :=
            mul_lt_mul_of_pos_left (by omega) hA
      _ = 10000 * amountOut := by ring
    refine ⟨_, _, hminVal, houtVal, ?_⟩
    have hpow : (0 : ℚ) < 10 ^ infoOut.decimals := by positivity
    apply div_lt_div_of_pos_right ?_ hpow
    exact_mod_cast hlt

/-- Witness for `c2_minimum_vs_amount_out` at concrete inputs. -/
theorem c2_minimum_vs_amount_out_witness :
    (effectiveSlippage sampleParams = 0 →
      decValue sampleQuote.minimumAmountOut = decValue sampleQuote.tokenOut.amount) ∧
    (1 ≤ jsRound (effectiveSlippage sampleParams * 100) → 0 < 100 →
      ∃ vMin vOut : ℚ, decValue sampleQuote.minimumAmountOut = some vMin ∧
        decValue sampleQuote.tokenOut.amount = some vOut ∧ vMin < vOut) :=
  c2_minimum_vs_amount_out sampleEnv sampleParams
    (sampleInfo COMMON_TOKENS.USDC) (sampleInfo COMMON_TOKENS.DAI) 100 100 sampleQuote
    (by rw [show effectiveSlippage sampleParams = mkRat 1 2 from rfl, Rat.mkRat_eq_div]
        norm_num)
    (by rw [show effectiveSlippage sampleParams = mkRat 1 2 from rfl, Rat.mkRat_eq_div]
        norm_num)
    (by decide) (by decide) (by decide) (by decide) (by decide)

/-- C2 counterexample: a successful quote with positive slippage (0.5) whose
minimum output is not strictly below the quoted output, because the quoter
returned zero: both formatted strings denote the value zero. -/
theorem c2_counterexample :
    (0 : ℚ) < effectiveSlippage sampleParams ∧
    (getSwapQuote zeroQuoteEnv sampleParams).2 = .ok zeroQuote ∧
    decValue zeroQuote.minimumAmountOut = some 0 ∧
    decValue zeroQuote.tokenOut.amount = some 0 ∧
    ¬ ((0 : ℚ) < 0) := by
  refine ⟨?_, by decide, ?_, ?_, by norm_num⟩
  · rw [show effectiveSlippage sampleParams = mkRat 1 2 from rfl, Rat.mkRat_eq_div]
    norm_num
  · have h := decValue_eq_of_toBaseUnits
      (show toBaseUnits "0" 0 = some 0 by decide)
    rw [show zeroQuote.minimumAmountOut = "0" from rfl, h]
    norm_num
  · have h := decValue_eq_of_toBaseUnits
      (show toBaseUnits "0" 0 = some 0 by decide)
    rw [show zeroQuote.tokenOut.amount = "0" from rfl, h]
    norm_num


/-! ## The swap pipeline -/

/-- Characterization of `swapTokens` once the pre-try stages succeed: the
trace is the quote trace, the re-read of the input metadata, then the try
block's trace, and the result is the try block's result. -/
theorem swapTokens_eq (env : ChainEnv) (params : SwapParams)
    {infoIn infoOut : TokenInfo} {amountIn amountOut : Nat}
    (hs0 : 0 ≤ effectiveSlippage params) (hs1 : effectiveSlippage params ≤ 100)
    (hIn : env.tokenInfo (quoteTokenInQuery params) = .ok infoIn)
    (hOut : env.tokenInfo (quoteTokenOutQuery params) = .ok infoOut)
    (hAmt : toBaseUnits params.amount infoIn.decimals = some amountIn)
    (hQ : env.quoter = .ok amountOut) :
    swapTokens env params =
      (ChainCall.getTokenInfo (quoteTokenInQuery params) ::
       ChainCall.getTokenInfo (quoteTokenOutQuery params) ::
       ChainCall.quoteExactInputSingle (quoteTokenInQuery params)
         (quoteTokenOutQuery params) 3000 amountIn ::
       ChainCall.getTokenInfo (quoteTokenInQuery params) ::
       (swapTry env params (mkQuote params infoIn infoOut amountIn amountOut)
          (normalizeTokenAddress params.tokenIn) (normalizeTokenAddress params.tokenOut)
          (normalizeTokenAddress params.tokenIn == COMMON_TOKENS.ETH)
          (normalizeTokenAddress params.tokenOut == COMMON_TOKENS.ETH)
          amountIn
          (amountOut * (10000 - (jsRound (effectiveSlippage params * 100)).toNat) / 10000)
          (params.recipient.getD env.senderAddress)).1,
       (swapTry env params (mkQuote params infoIn infoOut amountIn amountOut)
          (normalizeTokenAddress params.tokenIn) (normalizeTokenAddress params.tokenOut)
          (normalizeTokenAddress params.tokenIn == COMMON_TOKENS.ETH)
          (normalizeTokenAddress params.tokenOut == COMMON_TOKENS.ETH)
          amountIn
          (amountOut * (10000 - (jsRound (effectiveSlippage params * 100)).toNat) / 10000)
          (params.recipient.getD env.senderAddress)).2) := by
  have hquote := getSwapQuote_ok env params hIn hOut hAmt hQ
  have hparse : toBaseUnits (mkQuote params infoIn infoOut amountIn amountOut).minimumAmountOut
      (mkQuote params infoIn infoOut amountIn amountOut).tokenOut.decimals
      = some (amountOut * (10000 - (jsRound (effectiveSlippage params * 100)).toNat) / 10000) := by
    simp only [mkQuote]
    exact minimumAmountOut_parse amountOut (effectiveSlippage params) infoOut.decimals hs0 hs1
  rw [swapTokens, hquote]
  simp only [quoteTokenInQuery, quoteTokenOutQuery] at hIn ⊢
  simp only [hIn, hAmt, hparse, List.cons_append, List.nil_append]


/-- On the pay-with-ETH path the try block performs no allowance read and
no approval. -/
theorem swapTry_ethIn_no_allowance (env : ChainEnv) (params : SwapParams)
    (quote : SwapQuote) (nIn nOut : String) (bOut : Bool) (aIn minOut : Nat)
    (rcpt : String) :
    ∀ ev ∈ (swapTry env params quote nIn nOut true bOut aIn minOut rcpt).1,
      isAllowanceEv ev = false ∧ isApproveEv ev = false := by
  intro ev hev
  simp only [swapTry, swapRouterPhase, swapCatch, if_true] at hev
  repeat' split at hev
  all_goals (fin_cases hev <;> exact ⟨rfl, rfl⟩)

/-- On the ERC20 path the try block's first call is the allowance read. -/
theorem swapTry_erc20_head (env : ChainEnv) (params : SwapParams)
    (quote : SwapQuote) (nIn nOut : String) (bOut : Bool) (aIn minOut : Nat)
    (rcpt : String) :
    ∃ rest, (swapTry env params quote nIn nOut false bOut aIn minOut rcpt).1
      = ChainCall.readAllowance nIn env.senderAddress UNISWAP_V3_ROUTER :: rest := by
  simp only [swapTry, swapRouterPhase, swapCatch, Bool.false_eq_true, if_false,
    List.cons_append, List.nil_append]
  repeat' split
  all_goals exact ⟨_, rfl⟩

/-- On the ERC20 path an approval is issued exactly when the read allowance
is below the required amount, and any approval is for the requested
amount. -/
theorem swapTry_approve_iff (env : ChainEnv) (params : SwapParams)
    (quote : SwapQuote) (nIn nOut : String) (bOut : Bool) (aIn minOut : Nat)
    (rcpt : String) :
    ((∃ ev ∈ (swapTry env params quote nIn nOut false bOut aIn minOut rcpt).1,
        isApproveEv ev = true) ↔ env.allowance < aIn) ∧
    (∀ t s a, ChainCall.approve t s a ∈
        (swapTry env params quote nIn nOut false bOut aIn minOut rcpt).1 →
      t = nIn ∧ s = UNISWAP_V3_ROUTER ∧ a = params.amount) := by
  constructor
  · by_cases hlt : env.allowance < aIn
    · simp only [swapTry, swapRouterPhase, swapCatch, Bool.false_eq_true, if_false,
        List.cons_append, List.nil_append, if_pos hlt]
      refine iff_of_true ?_ hlt
      repeat' split
      all_goals exact ⟨ChainCall.approve nIn UNISWAP_V3_ROUTER params.amount, by simp, rfl⟩
    · simp only [swapTry, swapRouterPhase, swapCatch, Bool.false_eq_true, if_false,
        List.cons_append, List.nil_append, if_neg hlt]
      refine iff_of_false ?_ hlt
      rintro ⟨ev, hev, hap⟩
      repeat' split at hev
      all_goals (fin_cases hev <;> simp [isApproveEv] at hap)
  · intro t s a hmem
    simp only [swapTry, swapRouterPhase, swapCatch, Bool.false_eq_true, if_false,
      List.cons_append, List.nil_append] at hmem
    repeat' split at hmem
    all_goals simp only [List.mem_cons, List.not_mem_nil, or_false,
      ChainCall.approve.injEq] at hmem
    all_goals first
    | (rcases hmem with ⟨rfl, rfl, rfl⟩ | hmem <;> simp_all)
    | simp_all

/-- Every router submission in the try block carries the substituted token
addresses, the parsed input amount, the minimum output, the deadline, and
attaches the input amount as native value exactly on the ETH path. -/
theorem swapTry_router (env : ChainEnv) (params : SwapParams)
    (quote : SwapQuote) (nIn nOut : String) (bIn bOut : Bool) (aIn minOut : Nat)
    (rcpt : String) :
    ∀ tIn tOut fee rcp dl a m v, ChainCall.exactInputSingle tIn tOut fee rcp dl a m v ∈
        (swapTry env params quote nIn nOut bIn bOut aIn minOut rcpt).1 →
      tIn = (if bIn then COMMON_TOKENS.WETH else nIn) ∧
      tOut = (if bOut then COMMON_TOKENS.WETH else nOut) ∧
      fee = 3000 ∧
      rcp = (if bOut then env.senderAddress else rcpt) ∧
      dl = env.nowSeconds + 60 * 20 ∧
      a = aIn ∧ m = minOut ∧
      v = (if bIn then some aIn else none) := by
  intro tIn tOut fee rcp dl a m v hmem
  simp only [swapTry, swapRouterPhase, swapCatch, List.cons_append,
    List.nil_append] at hmem
  repeat' split at hmem
  all_goals simp only [List.mem_cons, List.not_mem_nil, or_false,
    ChainCall.exactInputSingle.injEq] at hmem
  all_goals first
  | (rcases hmem with ⟨rfl, rfl, rfl, rfl, rfl, rfl, rfl, rfl⟩ | hmem <;> simp_all)
  | (rcases hmem with hmem | ⟨rfl, rfl, rfl, rfl, rfl, rfl, rfl, rfl⟩ <;> simp_all)
  | simp_all

/-- A router failure on the ETH path is routed through the catch block. -/
theorem swapTry_router_error_ethIn (env : ChainEnv) (params : SwapParams)
    (quote : SwapQuote) (nIn nOut : String) (bOut : Bool) (aIn minOut : Nat)
    (rcpt : String) (e : String) (hrouter : env.routerResult = .error e) :
    (swapTry env params quote nIn nOut true bOut aIn minOut rcpt).2
      = (swapCatch env params.amount e).2 := by
  simp only [swapTry, swapRouterPhase, if_true, hrouter]


/-- The substituted input-side address is never the ETH sentinel. -/
theorem quoteTokenInQuery_ne_eth (params : SwapParams) :
    quoteTokenInQuery params ≠ COMMON_TOKENS.ETH := by
  rw [quoteTokenInQuery]
  by_cases hb : normalizeTokenAddress params.tokenIn == COMMON_TOKENS.ETH
  · rw [if_pos hb]
    decide
  · rw [if_neg hb]
    exact fun hc => hb (beq_iff_eq.mpr hc)

/-- The substituted output-side address is never the ETH sentinel. -/
theorem quoteTokenOutQuery_ne_eth (params : SwapParams) :
    quoteTokenOutQuery params ≠ COMMON_TOKENS.ETH := by
  rw [quoteTokenOutQuery]
  by_cases hb : normalizeTokenAddress params.tokenOut == COMMON_TOKENS.ETH
  · rw [if_pos hb]
    decide
  · rw [if_neg hb]
    exact fun hc => hb (beq_iff_eq.mpr hc)

/-- Every call in the quote trace is a metadata read or the quoter call on
the substituted addresses. -/
theorem getSwapQuote_trace_events (env : ChainEnv) (params : SwapParams) :
    ∀ ev ∈ (getSwapQuote env params).1,
      ev = ChainCall.getTokenInfo (quoteTokenInQuery params) ∨
      ev = ChainCall.getTokenInfo (quoteTokenOutQuery params) ∨
      ∃ a, ev = ChainCall.quoteExactInputSingle (quoteTokenInQuery params)
        (quoteTokenOutQuery params) 3000 a := by
  intro ev hev
  simp only [getSwapQuote] at hev
  simp only [quoteTokenInQuery, quoteTokenOutQuery]
  repeat' split at hev
  all_goals (fin_cases hev <;> simp_all)

/-- Token arguments appearing in the try block's trace. -/
theorem swapTry_trace_tokenArgs (env : ChainEnv) (params : SwapParams)
    (quote : SwapQuote) (nIn nOut : String) (bIn bOut : Bool) (aIn minOut : Nat)
    (rcpt : String) :
    ∀ ev ∈ (swapTry env params quote nIn nOut bIn bOut aIn minOut rcpt).1,
      ∀ t ∈ tokenArgs ev,
        t = (if bIn then COMMON_TOKENS.WETH else nIn) ∨
        t = (if bOut then COMMON_TOKENS.WETH else nOut) ∨
        (bIn = false ∧ t = nIn) := by
  intro ev hev t ht
  simp only [swapTry, swapRouterPhase, swapCatch, List.cons_append,
    List.nil_append] at hev
  repeat' split at hev
  all_goals (fin_cases hev <;> (try simp_all [tokenArgs]) <;> (try tauto))


/-- On every path, the `swapTokens` trace is the quote trace, possibly
followed by the input-metadata re-read and possibly the try block's
trace. -/
theorem swapTokens_trace_shape (env : ChainEnv) (params : SwapParams) :
    (swapTokens env params).1 = (getSwapQuote env params).1 ∨
    ∃ (quote : SwapQuote) (T : List ChainCall),
      (T = [] ∨ ∃ aIn minOut, T = (swapTry env params quote
        (normalizeTokenAddress params.tokenIn) (normalizeTokenAddress params.tokenOut)
        (normalizeTokenAddress params.tokenIn == COMMON_TOKENS.ETH)
        (normalizeTokenAddress params.tokenOut == COMMON_TOKENS.ETH)
        aIn minOut (params.recipient.getD env.senderAddress)).1) ∧
      (swapTokens env params).1 = (getSwapQuote env params).1 ++
        ChainCall.getTokenInfo (quoteTokenInQuery params) :: T := by
  rw [swapTokens]
  rcases hq : getSwapQuote env params with ⟨qTrace, qRes⟩
  have hqT : (getSwapQuote env params).1 = qTrace := by rw [hq]
  cases qRes with
  | error e =>
    left
    simp
  | ok quote =>
    right
    have hfold : (if (normalizeTokenAddress params.tokenIn == COMMON_TOKENS.ETH) = true
        then COMMON_TOKENS.WETH else normalizeTokenAddress params.tokenIn)
        = quoteTokenInQuery params := rfl
    simp only [List.cons_append, List.nil_append, hfold]
    repeat' split
    all_goals first
    | (refine ⟨quote, [], Or.inl rfl, ?_⟩; simp; done)
    | (rename_i aIn hpa xO minOut hpm
       refine ⟨quote, _, Or.inr ⟨aIn, minOut, rfl⟩, ?_⟩
       simp
       done)

/-- No call issued by `swapTokens` ever carries the ETH sentinel as a token
argument, on any path. -/
theorem swapTokens_trace_no_sentinel (env : ChainEnv) (params : SwapParams) :
    ∀ ev ∈ (swapTokens env params).1, ∀ t ∈ tokenArgs ev,
      t ≠ COMMON_TOKENS.ETH := by
  have hInNe := quoteTokenInQuery_ne_eth params
  have hOutNe := quoteTokenOutQuery_ne_eth params
  have hqevents := getSwapQuote_trace_events env params
  intro ev hev t ht
  have hquote_case : ev ∈ (getSwapQuote env params).1 → t ≠ COMMON_TOKENS.ETH := by
    intro hq
    rcases hqevents ev hq with rfl | rfl | ⟨a, rfl⟩ <;>
      simp only [tokenArgs, List.mem_cons, List.not_mem_nil, or_false] at ht <;>
      (try rcases ht with rfl | rfl) <;>
      first | exact hInNe | exact hOutNe | (subst ht; first | exact hInNe | exact hOutNe)
  rcases swapTokens_trace_shape env params with hsh | ⟨quote, T, hT, hsh⟩
  · rw [hsh] at hev
    exact hquote_case hev
  · rw [hsh] at hev
    rcases List.mem_append.mp hev with h | h
    · exact hquote_case h
    · rcases List.mem_cons.mp h with rfl | h2
      · simp only [tokenArgs, List.mem_cons, List.not_mem_nil, or_false] at ht
        rw [ht]
        exact hInNe
      · rcases hT with rfl | ⟨aIn, minOut, rfl⟩
        · simp at h2
        · rcases swapTry_trace_tokenArgs env params quote _ _ _ _ _ _ _ ev h2 t ht with
            h3 | h3 | ⟨hb, h3⟩
          · rw [h3]
            exact hInNe
          · rw [h3]
            exact hOutNe
          · rw [h3]
            intro hc
            rw [hc] at hb
            simp at hb


/-- An allowance event is not a router event. -/
theorem isRouterEv_false_of_allowance {e : ChainCall} (h : isAllowanceEv e = true) :
    isRouterEv e = false := by
  cases e <;> simp_all [isAllowanceEv, isRouterEv]

/-- If a router-free prefix is followed by an allowance read, then any
decomposition around a router event keeps the allowance read in the "before"
part. -/
theorem allowance_before_router_aux :
    ∀ (A : List ChainCall), (∀ e ∈ A, isRouterEv e = false) →
    ∀ (ra : ChainCall) (rest pre post : List ChainCall) (ev : ChainCall),
      isAllowanceEv ra = true → isRouterEv ev = true →
      A ++ ra :: rest = pre ++ ev :: post →
      ∃ e2 ∈ pre, isAllowanceEv e2 = true := by
  intro A
  induction A with
  | nil =>
    intro _ ra rest pre post ev hra hev heq
    cases pre with
    | nil =>
      simp only [List.nil_append, List.cons.injEq] at heq
      rw [← heq.1] at hev
      rw [isRouterEv_false_of_allowance hra] at hev
      exact absurd hev (by simp)
    | cons x pre2 =>
      simp only [List.nil_append, List.cons_append, List.cons.injEq] at heq
      exact ⟨x, by simp, heq.1 ▸ hra⟩
  | cons a A ih =>
    intro hA ra rest pre post ev hra hev heq
    cases pre with
    | nil =>
      simp only [List.cons_append, List.nil_append, List.cons.injEq] at heq
      rw [← heq.1] at hev
      rw [hA a (by simp)] at hev
      exact absurd hev (by simp)
    | cons x pre2 =>
      simp only [List.cons_append, List.cons.injEq] at heq
      obtain ⟨e2, he2, hall⟩ := ih (fun e he => hA e (by simp [he])) ra rest pre2 post ev
        hra hev heq.2
      exact ⟨e2, by simp [he2], hall⟩

/-- C3: on the ERC20 input path the allowance read precedes every router
submission, an approval is submitted exactly when the read allowance is
below the required base-unit amount (and is for exactly the requested
amount); on the ETH input path the allowance check and approval are skipped
entirely. -/
theorem c3_allowance_ordering (env : ChainEnv) (params : SwapParams)
    (infoIn infoOut : TokenInfo) (amountIn amountOut : Nat)
    (hs0 : 0 ≤ effectiveSlippage params) (hs1 : effectiveSlippage params ≤ 100)
    (hIn : env.tokenInfo (quoteTokenInQuery params) = .ok infoIn)
    (hOut : env.tokenInfo (quoteTokenOutQuery params) = .ok infoOut)
    (hAmt : toBaseUnits params.amount infoIn.decimals = some amountIn)
    (hQ : env.quoter = .ok amountOut) :
    ((normalizeTokenAddress params.tokenIn == COMMON_TOKENS.ETH) = false →
      (∀ pre ev post, (swapTokens env params).1 = pre ++ ev :: post →
        isRouterEv ev = true → ∃ e2 ∈ pre, isAllowanceEv e2 = true) ∧
      ((∃ ev ∈ (swapTokens env params).1, isApproveEv ev = true) ↔
        env.allowance < amountIn) ∧
      (∀ t s a, ChainCall.approve t s a ∈ (swapTokens env params).1 →
        t = normalizeTokenAddress params.tokenIn ∧ s = UNISWAP_V3_ROUTER ∧
        a = params.amount)) ∧
    ((normalizeTokenAddress params.tokenIn == COMMON_TOKENS.ETH) = true →
      ∀ ev ∈ (swapTokens env params).1,
        isAllowanceEv ev = false ∧ isApproveEv ev = false) := by
  have hswap := swapTokens_eq env params hs0 hs1 hIn hOut hAmt hQ
  have hT : (swapTokens env params).1 = _ := congrArg Prod.fst hswap
  constructor
  · intro hb
    rw [hb] at hT
    obtain ⟨rest, hrest⟩ := swapTry_erc20_head env params
      (mkQuote params infoIn infoOut amountIn amountOut)
      (normalizeTokenAddress params.tokenIn) (normalizeTokenAddress params.tokenOut)
      (normalizeTokenAddress params.tokenOut == COMMON_TOKENS.ETH)
      amountIn
      (amountOut * (10000 - (jsRound (effectiveSlippage params * 100)).toNat) / 10000)
      (params.recipient.getD env.senderAddress)
    refine ⟨?_, ?_, ?_⟩
    · intro pre ev post hdec hrouter
      rw [hT, hrest] at hdec
      exact allowance_before_router_aux
        [ChainCall.getTokenInfo (quoteTokenInQuery params),
         ChainCall.getTokenInfo (quoteTokenOutQuery params),
         ChainCall.quoteExactInputSingle (quoteTokenInQuery params)
           (quoteTokenOutQuery params) 3000 amountIn,
         ChainCall.getTokenInfo (quoteTokenInQuery params)]
        (by intro e he; fin_cases he <;> rfl)
        (ChainCall.readAllowance (normalizeTokenAddress params.tokenIn)
          env.senderAddress UNISWAP_V3_ROUTER)
        rest pre post ev rfl hrouter hdec
    · rw [hT]
      have hiff := (swapTry_approve_iff env params
        (mkQuote params infoIn infoOut amountIn amountOut)
        (normalizeTokenAddress params.tokenIn) (normalizeTokenAddress params.tokenOut)
        (normalizeTokenAddress params.tokenOut == COMMON_TOKENS.ETH)
        amountIn
        (amountOut * (10000 - (jsRound (effectiveSlippage params * 100)).toNat) / 10000)
        (params.recipient.getD env.senderAddress)).1
      constructor
      · rintro ⟨ev, hev, hap⟩
        apply hiff.mp
        simp only [List.mem_cons] at hev
        rcases hev with rfl | rfl | rfl | rfl | hev
        · exact absurd hap (by simp [isApproveEv])
        · exact absurd hap (by simp [isApproveEv])
        · exact absurd hap (by simp [isApproveEv])
        · exact absurd hap (by simp [isApproveEv])
        · exact ⟨ev, hev, hap⟩
      · intro hlt
        obtain ⟨ev, hev, hap⟩ := hiff.mpr hlt
        exact ⟨ev, by simp [hev], hap⟩
    · intro t s a hmem
      rw [hT] at hmem
      simp only [List.mem_cons] at hmem
      rcases hmem with h | h | h | h | h
      · exact absurd h (by simp)
      · exact absurd h (by simp)
      · exact absurd h (by simp)
      · exact absurd h (by simp)
      · exact (swapTry_approve_iff env params
          (mkQuote params infoIn infoOut amountIn amountOut)
          (normalizeTokenAddress params.tokenIn) (normalizeTokenAddress params.tokenOut)
          (normalizeTokenAddress params.tokenOut == COMMON_TOKENS.ETH)
          amountIn
          (amountOut * (10000 - (jsRound (effectiveSlippage params * 100)).toNat) / 10000)
          (params.recipient.getD env.senderAddress)).2 t s a h
  · intro hb
    rw [hb] at hT
    intro ev hev
    rw [hT] at hev
    simp only [List.mem_cons] at hev
    rcases hev with rfl | rfl | rfl | rfl | hev
    · exact ⟨rfl, rfl⟩
    · exact ⟨rfl, rfl⟩
    · exact ⟨rfl, rfl⟩
    · exact ⟨rfl, rfl⟩
    · exact swapTry_ethIn_no_allowance env params
        (mkQuote params infoIn infoOut amountIn amountOut)
        (normalizeTokenAddress params.tokenIn) (normalizeTokenAddress params.tokenOut)
        (normalizeTokenAddress params.tokenOut == COMMON_TOKENS.ETH)
        amountIn
        (amountOut * (10000 - (jsRound (effectiveSlippage params * 100)).toNat) / 10000)
        (params.recipient.getD env.senderAddress) ev hev


/-- Witness for `c3_allowance_ordering`: on the concrete ETH-input run no
allowance or approval call appears in the trace. -/
theorem c3_allowance_ordering_witness :
    isAllowanceEv (ChainCall.getTokenInfo COMMON_TOKENS.WETH) = false ∧
    isApproveEv (ChainCall.getTokenInfo COMMON_TOKENS.WETH) = false :=
  (c3_allowance_ordering sampleEnv ethParams (sampleInfo COMMON_TOKENS.WETH)
    (sampleInfo COMMON_TOKENS.USDC) 1 100
    (by rw [show effectiveSlippage ethParams = mkRat 1 2 from rfl, Rat.mkRat_eq_div]
        norm_num)
    (by rw [show effectiveSlippage ethParams = mkRat 1 2 from rfl, Rat.mkRat_eq_div]
        norm_num)
    (by decide) (by decide) (by decide) (by decide)).2 (by decide)
    (ChainCall.getTokenInfo COMMON_TOKENS.WETH) (by decide)

/-- C4: no contract call issued by the quote or swap flow ever carries the
ETH sentinel as a token argument; an ETH-flagged side is substituted with
the WETH address; and the returned quote reports the pre-substitution
normalized addresses. -/
theorem c4_eth_sentinel (env : ChainEnv) (params : SwapParams) :
    (∀ ev ∈ (getSwapQuote env params).1, ∀ t ∈ tokenArgs ev,
      t ≠ COMMON_TOKENS.ETH) ∧
    (∀ ev ∈ (swapTokens env params).1, ∀ t ∈ tokenArgs ev,
      t ≠ COMMON_TOKENS.ETH) ∧
    (normalizeTokenAddress params.tokenIn = COMMON_TOKENS.ETH →
      quoteTokenInQuery params = COMMON_TOKENS.WETH) ∧
    (normalizeTokenAddress params.tokenOut = COMMON_TOKENS.ETH →
      quoteTokenOutQuery params = COMMON_TOKENS.WETH) ∧
    (∀ q, (getSwapQuote env params).2 = .ok q →
      q.tokenIn.address = normalizeTokenAddress params.tokenIn ∧
      q.tokenOut.address = normalizeTokenAddress params.tokenOut) := by
  have hInNe := quoteTokenInQuery_ne_eth params
  have hOutNe := quoteTokenOutQuery_ne_eth params
  refine ⟨?_, swapTokens_trace_no_sentinel env params, ?_, ?_, ?_⟩
  · intro ev hev t ht
    rcases getSwapQuote_trace_events env params ev hev with rfl | rfl | ⟨a, rfl⟩ <;>
      simp only [tokenArgs, List.mem_cons, List.not_mem_nil, or_false] at ht
    · rw [ht]
      exact hInNe
    · rw [ht]
      exact hOutNe
    · rcases ht with rfl | rfl
      · exact hInNe
      · exact hOutNe
  · intro h
    rw [quoteTokenInQuery, if_pos (beq_iff_eq.mpr h)]
  · intro h
    rw [quoteTokenOutQuery, if_pos (beq_iff_eq.mpr h)]
  · intro q hok
    rw [getSwapQuote] at hok
    repeat' split at hok
    all_goals (try simp only [] at hok)
    all_goals first
    | (injection hok with h2
       rw [← h2]
       exact ⟨rfl, rfl⟩)
    | exact absurd hok (by simp)

/-- Witness for `c4_eth_sentinel`: the concrete quote reports the
pre-substitution normalized addresses. -/
theorem c4_eth_sentinel_witness :
    sampleQuote.tokenIn.address = normalizeTokenAddress sampleParams.tokenIn ∧
    sampleQuote.tokenOut.address = normalizeTokenAddress sampleParams.tokenOut :=
  (c4_eth_sentinel sampleEnv sampleParams).2.2.2.2 sampleQuote (by decide)

/-- C7: every router submission of `swapTokens` carries the parsed
base-unit input amount, and attaches it as the transaction's native value
exactly when the input token is ETH (no value otherwise). -/
theorem c7_native_value (env : ChainEnv) (params : SwapParams)
    (infoIn infoOut : TokenInfo) (amountIn amountOut : Nat)
    (hs0 : 0 ≤ effectiveSlippage params) (hs1 : effectiveSlippage params ≤ 100)
    (hIn : env.tokenInfo (quoteTokenInQuery params) = .ok infoIn)
    (hOut : env.tokenInfo (quoteTokenOutQuery params) = .ok infoOut)
    (hAmt : toBaseUnits params.amount infoIn.decimals = some amountIn)
    (hQ : env.quoter = .ok amountOut) :
    ∀ tIn tOut fee rcp dl a m v,
      ChainCall.exactInputSingle tIn tOut fee rcp dl a m v ∈ (swapTokens env params).1 →
      a = amountIn ∧
      v = (if normalizeTokenAddress params.tokenIn == COMMON_TOKENS.ETH
           then some amountIn else none) := by
  have hswap := swapTokens_eq env params hs0 hs1 hIn hOut hAmt hQ
  have hT := congrArg Prod.fst hswap
  intro tIn tOut fee rcp dl a m v hmem
  rw [hT] at hmem
  simp only [List.mem_cons] at hmem
  rcases hmem with h | h | h | h | h
  · exact absurd h (by simp)
  · exact absurd h (by simp)
  · exact absurd h (by simp)
  · exact absurd h (by simp)
  · have hr := swapTry_router env params (mkQuote params infoIn infoOut amountIn amountOut)
      (normalizeTokenAddress params.tokenIn) (normalizeTokenAddress params.tokenOut)
      (normalizeTokenAddress params.tokenIn == COMMON_TOKENS.ETH)
      (normalizeTokenAddress params.tokenOut == COMMON_TOKENS.ETH)
      amountIn
      (amountOut * (10000 - (jsRound (effectiveSlippage params * 100)).toNat) / 10000)
      (params.recipient.getD env.senderAddress)
      tIn tOut fee rcp dl a m v h
    exact ⟨hr.2.2.2.2.2.1, hr.2.2.2.2.2.2.2⟩

/-- Witness for `c7_native_value`: the concrete ETH-input run submits the
router call with the input amount attached as native value. -/
theorem c7_native_value_witness :
    (1 : Nat) = 1 ∧
    some (1 : Nat) = (if normalizeTokenAddress ethParams.tokenIn == COMMON_TOKENS.ETH
      then some 1 else none) :=
  c7_native_value sampleEnv ethParams (sampleInfo COMMON_TOKENS.WETH)
    (sampleInfo COMMON_TOKENS.USDC) 1 100
    (by rw [show effectiveSlippage ethParams = mkRat 1 2 from rfl, Rat.mkRat_eq_div]
        norm_num)
    (by rw [show effectiveSlippage ethParams = mkRat 1 2 from rfl, Rat.mkRat_eq_div]
        norm_num)
    (by decide) (by decide) (by decide) (by decide)
    COMMON_TOKENS.WETH COMMON_TOKENS.USDC 3000 "0xsender" 2200 1 99 (some 1)
    (by decide)


/-! ## Error handling (swapTokens catch block) -/

/-- C8: an insufficient-funds match produces the enriched error carrying
the current native balance and the requested amount; every other failure is
re-thrown with the original message appended; and a router failure in
`swapTokens` is routed through exactly this catch behaviour. -/
theorem c8_error_messages :
    (∀ (env : ChainEnv) (amount e : String),
      strIncludes e "insufficient funds" = true →
      (swapCatch env amount e).2 =
        .error (insufficientFundsMessage env.nativeBalance amount) ∧
      substrOf env.nativeBalance (insufficientFundsMessage env.nativeBalance amount) ∧
      substrOf amount (insufficientFundsMessage env.nativeBalance amount)) ∧
    (∀ (env : ChainEnv) (amount e : String),
      strIncludes e "insufficient funds" = false →
      (swapCatch env amount e).2 = .error ("Failed to execute swap: " ++ e) ∧
      substrOf e ("Failed to execute swap: " ++ e)) ∧
    (∀ (env : ChainEnv) (params : SwapParams) (infoIn infoOut : TokenInfo)
      (amountIn amountOut : Nat) (e : String),
      0 ≤ effectiveSlippage params → effectiveSlippage params ≤ 100 →
      env.tokenInfo (quoteTokenInQuery params) = .ok infoIn →
      env.tokenInfo (quoteTokenOutQuery params) = .ok infoOut →
      toBaseUnits params.amount infoIn.decimals = some amountIn →
      env.quoter = .ok amountOut →
      (normalizeTokenAddress params.tokenIn == COMMON_TOKENS.ETH) = true →
      env.routerResult = .error e →
      (swapTokens env params).2 = (swapCatch env params.amount e).2) := by
  refine ⟨?_, ?_, ?_⟩
  · intro env amount e h
    refine ⟨by rw [swapCatch, if_pos h], ?_, ?_⟩
    · refine ⟨"Insufficient funds for swap. You have ",
        " ETH but the transaction requires " ++ amount ++ " ETH plus gas fees.", ?_⟩
      rw [insufficientFundsMessage]
      simp only [String.append_assoc]
    · refine ⟨"Insufficient funds for swap. You have " ++ env.nativeBalance ++
        " ETH but the transaction requires ", " ETH plus gas fees.", ?_⟩
      rw [insufficientFundsMessage]
  · intro env amount e h
    refine ⟨by rw [swapCatch, if_neg (by simp [h])], ?_⟩
    exact ⟨"Failed to execute swap: ", "", by rw [String.append_empty]⟩
  · intro env params infoIn infoOut amountIn amountOut e hs0 hs1 hIn hOut hAmt hQ hb hr
    have hswap := swapTokens_eq env params hs0 hs1 hIn hOut hAmt hQ
    have hres := congrArg Prod.snd hswap
    simp only at hres
    rw [hres, hb]
    exact swapTry_router_error_ethIn env params
      (mkQuote params infoIn infoOut amountIn amountOut)
      (normalizeTokenAddress params.tokenIn) (normalizeTokenAddress params.tokenOut)
      (normalizeTokenAddress params.tokenOut == COMMON_TOKENS.ETH)
      amountIn
      (amountOut * (10000 - (jsRound (effectiveSlippage params * 100)).toNat) / 10000)
      (params.recipient.getD env.senderAddress) e hr

/-- Witness for `c8_error_messages` at a concrete failing run. -/
theorem c8_error_messages_witness :
    (swapCatch sampleEnv "1" "insufficient funds for gas * price + value").2 =
      .error (insufficientFundsMessage sampleEnv.nativeBalance "1") ∧
    substrOf sampleEnv.nativeBalance (insufficientFundsMessage sampleEnv.nativeBalance "1") ∧
    substrOf "1" (insufficientFundsMessage sampleEnv.nativeBalance "1") :=
  c8_error_messages.1 sampleEnv "1" "insufficient funds for gas * price + value"
    (by decide)


/-! ## Agent-tool boundary -/

/-- C9: the tool wrappers never propagate an exception: every invocation
returns `Except.ok` text, which is the JSON serialization of the result on
success and a descriptive error string on failure. -/
theorem c9_tools_never_throw :
    (∀ (env : ChainEnv) (input : SwapParams),
      ∃ s, getSwapQuoteToolCall env input = .ok s) ∧
    (∀ (env : ChainEnv) (input : SwapParams) (q : SwapQuote),
      (getSwapQuote env { tokenIn := input.tokenIn, tokenOut := input.tokenOut,
                          amount := input.amount,
                          slippagePercentage := input.slippagePercentage }).2 = .ok q →
      getSwapQuoteToolCall env input = .ok (jsonQuoteString q)) ∧
    (∀ (env : ChainEnv) (input : SwapParams) (e : String),
      (getSwapQuote env { tokenIn := input.tokenIn, tokenOut := input.tokenOut,
                          amount := input.amount,
                          slippagePercentage := input.slippagePercentage }).2 = .error e →
      getSwapQuoteToolCall env input = .ok ("Error getting swap quote: " ++ e) ∧
      substrOf e ("Error getting swap quote: " ++ e)) ∧
    (∀ (response : Except String (Option (List DexPair))) (addr : String),
      ∃ s, getTokenDataToolCall response addr = .ok s) ∧
    (∀ (response : Except String (Option (List DexPair))) (addr : String) (e : String),
      response = .error e →
      getTokenDataToolCall response addr =
        .ok ("Error fetching token data: " ++ e)) := by
  refine ⟨?_, ?_, ?_, ?_, ?_⟩
  · intro env input
    rw [getSwapQuoteToolCall]
    cases (getSwapQuote env { tokenIn := input.tokenIn, tokenOut := input.tokenOut,
                              amount := input.amount,
                              slippagePercentage := input.slippagePercentage }).2 with
    | ok q => exact ⟨jsonQuoteString q, rfl⟩
    | error e => exact ⟨"Error getting swap quote: " ++ e, rfl⟩
  · intro env input q h
    rw [getSwapQuoteToolCall, h]
  · intro env input e h
    rw [getSwapQuoteToolCall, h]
    exact ⟨rfl, "Error getting swap quote: ", "", by rw [String.append_empty]⟩
  · intro response addr
    rcases response with e | p
    · exact ⟨"Error fetching token data: " ++ e, rfl⟩
    · rcases p with _ | ⟨_ | ⟨pair, rest⟩⟩
      · exact ⟨"No data found for this token", rfl⟩
      · exact ⟨"No data found for this token", rfl⟩
      · exact ⟨jsonTokenDataString pair, rfl⟩
  · intro response addr e h
    rw [h]
    rfl

/-- Witness for `c9_tools_never_throw` at a concrete failing invocation. -/
theorem c9_tools_never_throw_witness :
    getTokenDataToolCall (.error "network down") "0xdeadbeef" =
      .ok ("Error fetching token data: " ++ "network down") :=
  c9_tools_never_throw.2.2.2.2 (.error "network down") "0xdeadbeef" "network down" rfl


/-! ## DexScreener search (C10) -/

/-- The comparator relation used by the search sort. -/
theorem sortPairsByVolume_perm (pairs : List DexPair) :
    List.Perm (sortPairsByVolume pairs) pairs :=
  List.mergeSort_perm pairs _

/-- The sorted pair list is weakly descending by 24-hour volume. -/
theorem sortPairsByVolume_sorted (pairs : List DexPair) :
    (sortPairsByVolume pairs).Pairwise
      (fun a b => b.volumeH24 ≤ a.volumeH24) := by
  have h := @List.sorted_mergeSort DexPair
    (fun a b => decide (b.volumeH24 ≤ a.volumeH24))
    (fun a b c hab hbc => by
      simp only [decide_eq_true_eq] at *
      exact le_trans hbc hab)
    (fun a b => by
      simp only [Bool.or_eq_true, decide_eq_true_eq]
      exact le_total b.volumeH24 a.volumeH24)
    pairs
  exact h.imp (fun h1 => by simpa using h1)

/-- With pairwise-distinct volumes, the sorted list is strictly
descending. -/
theorem sortPairsByVolume_strict (pairs : List DexPair)
    (hdist : pairs.Pairwise (fun a b => a.volumeH24 ≠ b.volumeH24)) :
    (sortPairsByVolume pairs).Pairwise
      (fun a b => b.volumeH24 < a.volumeH24) := by
  have hdist2 : (sortPairsByVolume pairs).Pairwise
      (fun a b => a.volumeH24 ≠ b.volumeH24) :=
    ((sortPairsByVolume_perm pairs).pairwise_iff (fun h => h.symm)).mpr hdist
  exact (sortPairsByVolume_sorted pairs).imp₂ (fun a b hle hne => lt_of_le_of_ne hle hne.symm) hdist2

/-- C10: on a non-empty response with pairwise-distinct 24-hour volumes,
the search keeps exactly the `min 3 (length)` highest-volume pairs, in
strictly descending volume order, and reports them (mapped to result
records) with the "Found n top pairs" message. -/
theorem c10_search_top3 (pairs : List DexPair) (ticker : String)
    (hne : pairs ≠ [])
    (hdist : pairs.Pairwise (fun a b => a.volumeH24 ≠ b.volumeH24)) :
    searchTokenByTickerService (.ok (some pairs)) ticker =
      .ok { message := "Found " ++ natToStr (topPairsOf pairs).length ++
              " top pairs for " ++ ticker
            results := (topPairsOf pairs).map toSearchResult } ∧
    (topPairsOf pairs).length = min 3 pairs.length ∧
    List.Subperm (topPairsOf pairs) pairs ∧
    (topPairsOf pairs).Pairwise (fun a b => b.volumeH24 < a.volumeH24) ∧
    (∀ a ∈ topPairsOf pairs, ∀ b ∈ pairs, b ∉ topPairsOf pairs →
      b.volumeH24 < a.volumeH24) := by
  have hperm := sortPairsByVolume_perm pairs
  have hstrict := sortPairsByVolume_strict pairs hdist
  refine ⟨?_, ?_, ?_, ?_, ?_⟩
  · rw [searchTokenByTickerService, if_neg (by simpa using hne)]
  · rw [topPairsOf, List.length_take, hperm.length_eq]
  · exact ((List.take_sublist 3 _).subperm).trans hperm.subperm
  · exact hstrict.sublist (List.take_sublist 3 _)
  · intro a ha b hb hbn
    have hbs : b ∈ sortPairsByVolume pairs := hperm.mem_iff.mpr hb
    have hbdrop : b ∈ (sortPairsByVolume pairs).drop 3 := by
      rcases List.mem_append.mp (by
        rw [List.take_append_drop 3 (sortPairsByVolume pairs)]
        exact hbs) with h | h
      · exact absurd h hbn
      · exact h
    have hsplit := hstrict
    rw [← List.take_append_drop 3 (sortPairsByVolume pairs)] at hsplit
    exact (List.pairwise_append.mp hsplit).2.2 a ha b hbdrop


/-- Witness for `c10_search_top3` on a concrete five-pair response. -/
theorem c10_search_top3_witness :
    (samplePairs ≠ [] ∧
     samplePairs.Pairwise (fun a b => a.volumeH24 ≠ b.volumeH24)) ∧
    (searchTokenByTickerService (.ok (some samplePairs)) "ETH" =
      .ok { message := "Found " ++ natToStr (topPairsOf samplePairs).length ++
              " top pairs for " ++ "ETH"
            results := (topPairsOf samplePairs).map toSearchResult } ∧
    (topPairsOf samplePairs).length = min 3 samplePairs.length ∧
    List.Subperm (topPairsOf samplePairs) samplePairs ∧
    (topPairsOf samplePairs).Pairwise (fun a b => b.volumeH24 < a.volumeH24) ∧
    (∀ a ∈ topPairsOf samplePairs, ∀ b ∈ samplePairs, b ∉ topPairsOf samplePairs →
      b.volumeH24 < a.volumeH24)) :=
  ⟨⟨by decide, by decide⟩, c10_search_top3 samplePairs "ETH" (by decide) (by decide)⟩

end KibanKit
